import Mathlib

/-!
Verification of the ZipCache multi-tier cache against its specification.

This file gives a shallow embedding of the parts of the ZipCache sources that
the checked claims are about:

* the bitmap block allocator of SSD-tier/lib/bplustree.c
  (block_allocator_init, allocate_block, allocate_multiple_blocks, free_block);
* the 4 KiB sub-page and super-leaf operations of SSD-tier/lib/bplustree.c
  (sub_page_insert, sub_page_search, sub_page_delete, super_leaf_insert_hashed,
  super_leaf_search_hashed, super_leaf_delete_hashed, consolidate_and_sort,
  redistribute_pairs_hashed, split_super_leaf, bplus_tree_ssd_put);
* the tier router of zipcache.c (zipcache_classify_object, zipcache_hash_key,
  zipcache_checksum, zipcache_write_large_object, zipcache_read_large_object,
  zipcache_route_put, zipcache_coordinated_read, zipcache_delete).

Machine integers are modelled as Nat or Int with explicit reduction mod 2 to the
word width where the C code can overflow.  Sub-page payload arrays are modelled
by the list of their first header.entries (key, value) slots, which the C code
keeps sorted by key; on-disk pages and cache maps are modelled as total
functions.  Failure is modelled with Option.  The base DRAM B+tree
(DRAM-tier bplustree.c) is not part of the source tree - only its callers and
its header users are - so its put and get are modelled from the specification,
as marked in their doc comments below.
-/

namespace ZipCache

set_option maxRecDepth 200000
set_option maxHeartbeats 1000000

/-- 2 to the 32, the modulus of the C type uint32_t. -/
def U32 : ℕ := 4294967296

/-- Reduce an Int (a C signed value reinterpreted by a cast to uint32_t)
to its 32-bit unsigned representative, as in the C cast (uint32_t)key. -/
def toU32 (k : ℤ) : ℕ := (k % (U32 : ℤ)).toNat

/- ============================================================
   Block allocator (SSD-tier/lib/bplustree.c, lines 46-139)
   ============================================================ -/

/-- State of struct block_allocator: a bitmap over block ids, the number of
allocated blocks (a uint32_t counter, kept below U32), and the rolling
search hint.  The bitmap word array of the C code is modelled one bit per
block id. -/
structure block_allocator where
  total_blocks : ℕ
  allocated_blocks : ℕ
  next_search_hint : ℕ
  bitmap : ℕ → Bool

/-- block_allocator_init: all bits clear, counter and hint zero. -/
def block_allocator_init (total : ℕ) : block_allocator :=
  { total_blocks := total
    allocated_blocks := 0
    next_search_hint := 0
    bitmap := fun _ => false }

/-- allocate_block (lines 75-97): linear scan from the hint, wrapping;
set the first clear bit, bump the counter, advance the hint.  Returns
none for INVALID_BLOCK_ID. -/
def allocate_block (a : block_allocator) : Option ℕ × block_allocator :=
  if a.total_blocks ≤ a.allocated_blocks then (none, a)
  else
    match (List.range a.total_blocks).find?
        (fun i => !a.bitmap ((a.next_search_hint + i) % a.total_blocks)) with
    | none => (none, a)
    | some i =>
        let b := (a.next_search_hint + i) % a.total_blocks
        (some b,
          { a with
            bitmap := fun x => if x = b then true else a.bitmap x
            allocated_blocks := (a.allocated_blocks + 1) % U32
            next_search_hint := (b + 1) % a.total_blocks })

/-- free_block (lines 119-130): out-of-range ids are ignored; a set bit is
cleared and the uint32_t counter decremented (wrapping); a clear bit
(double free) is a no-op. -/
def free_block (a : block_allocator) (b : ℕ) : block_allocator :=
  if a.total_blocks ≤ b then a
  else if a.bitmap b then
    { a with
      bitmap := fun x => if x = b then false else a.bitmap x
      allocated_blocks := (a.allocated_blocks + (U32 - 1)) % U32 }
  else a

/-- The allocation loop of allocate_multiple_blocks (lines 104-114): allocate
count blocks one by one, collecting them in order; on a failed allocation,
roll back the blocks already allocated, freeing them in allocation order. -/
def amb_loop : ℕ → block_allocator → List ℕ → Option (List ℕ) × block_allocator
  | 0, a, acc => (some acc.reverse, a)
  | n + 1, a, acc =>
      match allocate_block a with
      | (none, a') => (none, acc.reverse.foldl free_block a')
      | (some b, a') => amb_loop n a' (b :: acc)

/-- allocate_multiple_blocks (lines 99-117).  The early capacity check adds
the uint32_t operands mod U32 exactly as the C expression does.  The result
is the int return code, the final allocator and, on success, the list
written into the callers block id array. -/
def allocate_multiple_blocks (a : block_allocator) (count : ℕ) :
    ℤ × block_allocator × Option (List ℕ) :=
  if count = 0 then (-1, a, none)
  else if a.total_blocks < (a.allocated_blocks + count) % U32 then (-1, a, none)
  else
    match amb_loop count a [] with
    | (none, a') => (-1, a', none)
    | (some ids, a') => (0, a', some ids)

/- ============================================================
   Sub-pages and super-leaves (SSD-tier/lib/bplustree.c)
   ============================================================ -/

/-- SUB_PAGES_PER_SUPER_LEAF = SUPER_LEAF_SIZE / SUB_PAGE_SIZE = 65536 / 4096. -/
def SUB_PAGES_PER_SUPER_LEAF : ℕ := 16

/-- ENTRIES_PER_SUB_PAGE = (4096 - sizeof(struct sub_page_header)) /
(sizeof(key_t) + sizeof(long)) = (4096 - 16) / (4 + 8) = 340. -/
def ENTRIES_PER_SUB_PAGE : ℕ := 340

/-- hash_key_to_sub_page (lines 214-230): cast the int key to uint32_t,
multiply by the Knuth constant (uint32_t wraparound), mix with two
xor-shifts, reduce mod the number of sub-pages. -/
def hash_key_to_sub_page (key : ℤ) (num_sub_pages : ℕ) : ℕ :=
  if num_sub_pages = 0 then 0
  else
    let h1 := (toU32 key * 2654435761) % U32
    let h2 := h1 ^^^ (h1 >>> 16)
    let h3 := h2 ^^^ (h2 >>> 8)
    h3 % num_sub_pages

/-- The sub-page index of a key, as an index below 16. -/
def hashIdx (key : ℤ) : Fin 16 :=
  ⟨hash_key_to_sub_page key 16, by
    unfold hash_key_to_sub_page
    simp only [OfNat.ofNat_ne_zero, if_false]
    exact Nat.mod_lt _ (by norm_num)⟩

/-- A 4 KiB sub-page, modelled by the list of its first header.entries
(key, value) slots; the C operations keep this list sorted by strictly
increasing key, and header.entries is its length. -/
abbrev SubPage := List (ℤ × ℤ)

/-- sub_page_is_full (lines 302-305): entries at or above ENTRIES_PER_SUB_PAGE. -/
def sub_page_is_full (p : SubPage) : Bool := ENTRIES_PER_SUB_PAGE ≤ p.length

/-- The in-place shift insert of sub_page_insert on the sorted key array:
an existing key is overwritten, otherwise the pair is placed at its sorted
position. -/
def sp_insert_sorted (k v : ℤ) : List (ℤ × ℤ) → List (ℤ × ℤ)
  | [] => [(k, v)]
  | (k0, v0) :: rest =>
      if k = k0 then (k, v) :: rest
      else if k < k0 then (k, v) :: (k0, v0) :: rest
      else (k0, v0) :: sp_insert_sorted k v rest

/-- sub_page_insert (lines 260-289): fails (-1, here none) when the page is
already full - the fullness test precedes the existing-key test - and
otherwise updates in place or inserts at the binary-search position. -/
def sub_page_insert (p : SubPage) (k v : ℤ) : Option SubPage :=
  if sub_page_is_full p then none else some (sp_insert_sorted k v p)

/-- sub_page_search (lines 291-300): value of the key, or -1 if absent. -/
def sub_page_search (p : SubPage) (k : ℤ) : ℤ :=
  match p.find? (fun e => e.1 = k) with
  | some e => e.2
  | none => -1

/-- sub_page_delete (lines 307-329): remove the entry found by binary
search, shifting the tail left; -1 (none) if the key is absent. -/
def sub_page_delete (p : SubPage) (k : ℤ) : Option SubPage :=
  if (p.find? (fun e => e.1 = k)).isSome then some (p.eraseP (fun e => e.1 = k))
  else none

/-- struct bplus_super_leaf: counters, per-slot block ids (none models
INVALID_BLOCK_ID), the in-memory sub-page cache, dirty flags, and the
sibling links.  The type tag is constant and omitted. -/
structure bplus_super_leaf where
  total_entries : ℤ
  active_sub_pages : ℤ
  sub_page_blocks : Fin 16 → Option ℕ
  cached_sub_pages : Fin 16 → Option SubPage
  dirty_flags : Fin 16 → Bool
  next_super_leaf : ℤ
  prev_super_leaf : ℤ

/-- super_leaf_create (lines 446-467): everything empty and invalid. -/
def super_leaf_create : bplus_super_leaf :=
  { total_entries := 0
    active_sub_pages := 0
    sub_page_blocks := fun _ => none
    cached_sub_pages := fun _ => none
    dirty_flags := fun _ => false
    next_super_leaf := -1
    prev_super_leaf := -1 }

/-- struct disk_manager, restricted to what the super-leaf operations use:
the block allocator and the per-block disk images.  A block that was never
written reads back as all zeros, that is as the empty sub-page. -/
structure disk_manager where
  allocator : block_allocator
  total_4kb_blocks : ℕ
  disk : ℕ → SubPage

/-- disk_read_sub_page (lines 427-443): out-of-range blocks fail (NULL). -/
def disk_read_sub_page (dm : disk_manager) (b : ℕ) : Option SubPage :=
  if b < dm.total_4kb_blocks then some (dm.disk b) else none

/-- disk_write_sub_page (lines 411-425): zero-pads the unused slots (which
does not change the logical content) and writes the 4 KiB image; fails for
out-of-range blocks. -/
def disk_write_sub_page (dm : disk_manager) (b : ℕ) (p : SubPage) : Option disk_manager :=
  if b < dm.total_4kb_blocks then
    some { dm with disk := Function.update dm.disk b p }
  else none

/-- super_leaf_load_sub_page_by_hash (lines 484-522): return the cached
sub-page; otherwise allocate a block and a fresh empty page for an invalid
slot (marking it dirty and raising active_sub_pages to idx+1 if needed), or
read the block from disk into the cache.  none models the NULL returns
(allocator exhausted, or a failed disk read); in both failure branches the
super-leaf and disk manager are observably unchanged. -/
def super_leaf_load_sub_page_by_hash (dm : disk_manager) (sl : bplus_super_leaf)
    (key : ℤ) : Option (SubPage × bplus_super_leaf × disk_manager) :=
  let i := hashIdx key
  match sl.cached_sub_pages i with
  | some p => some (p, sl, dm)
  | none =>
      match sl.sub_page_blocks i with
      | none =>
          match allocate_block dm.allocator with
          | (none, _) => none
          | (some b, a') =>
              some (([] : SubPage),
                { sl with
                  sub_page_blocks := Function.update sl.sub_page_blocks i (some b)
                  cached_sub_pages := Function.update sl.cached_sub_pages i (some ([] : SubPage))
                  dirty_flags := Function.update sl.dirty_flags i true
                  active_sub_pages :=
                    if sl.active_sub_pages ≤ (i : ℕ) then (i : ℕ) + 1
                    else sl.active_sub_pages },
                { dm with allocator := a' })
      | some b =>
          match disk_read_sub_page dm b with
          | none => none
          | some p =>
              some (p,
                { sl with cached_sub_pages := Function.update sl.cached_sub_pages i (some p) },
                dm)

/-- super_leaf_is_full (lines 743-750): total_entries at or above 90
percent of SUB_PAGES_PER_SUPER_LEAF * ENTRIES_PER_SUB_PAGE.  The C
comparison is against the double 5440 * 0.9, which evaluates to exactly
4896.0 (the rounding error of the IEEE product is far below the spacing of
doubles near 4896), so the test is total_entries at least 4896. -/
def super_leaf_is_full (sl : bplus_super_leaf) : Bool :=
  4896 ≤ sl.total_entries

/-- super_leaf_insert_hashed (lines 556-597): load the hash-selected
sub-page (single 4 KiB I/O); a full target page yields -2 when the whole
super-leaf is full and -1 otherwise; on insertion the page is marked dirty
and total_entries is incremented - also when the key was already present
and was only updated in place. -/
def super_leaf_insert_hashed (dm : disk_manager) (sl : bplus_super_leaf)
    (key data : ℤ) : ℤ × bplus_super_leaf × disk_manager :=
  match super_leaf_load_sub_page_by_hash dm sl key with
  | none => (-1, sl, dm)
  | some (p, sl', dm') =>
      if sub_page_is_full p then
        if super_leaf_is_full sl' then (-2, sl', dm') else (-1, sl', dm')
      else
        match sub_page_insert p key data with
        | none => (-1, sl', dm')
        | some p' =>
            (0,
              { sl' with
                cached_sub_pages := Function.update sl'.cached_sub_pages (hashIdx key) (some p')
                dirty_flags := Function.update sl'.dirty_flags (hashIdx key) true
                total_entries := sl'.total_entries + 1 },
              dm')

/-- super_leaf_search_hashed (lines 622-651): -1 when the hash-selected
slot has no block, otherwise load the sub-page and search it. -/
def super_leaf_search_hashed (dm : disk_manager) (sl : bplus_super_leaf)
    (key : ℤ) : ℤ × bplus_super_leaf × disk_manager :=
  if (sl.sub_page_blocks (hashIdx key)).isNone then (-1, sl, dm)
  else
    match super_leaf_load_sub_page_by_hash dm sl key with
    | none => (-1, sl, dm)
    | some (p, sl', dm') => (sub_page_search p key, sl', dm')

/-- super_leaf_delete_hashed (lines 654-683): -1 when the hash-selected
slot has no block or the key is absent; otherwise remove the entry, mark
the page dirty and decrement total_entries. -/
def super_leaf_delete_hashed (dm : disk_manager) (sl : bplus_super_leaf)
    (key : ℤ) : ℤ × bplus_super_leaf × disk_manager :=
  let i := hashIdx key
  if (sl.sub_page_blocks i).isNone then (-1, sl, dm)
  else
    match super_leaf_load_sub_page_by_hash dm sl key with
    | none => (-1, sl, dm)
    | some (p, sl', dm') =>
        match sub_page_delete p key with
        | some p' =>
            (0,
              { sl' with
                cached_sub_pages := Function.update sl'.cached_sub_pages i (some p')
                dirty_flags := Function.update sl'.dirty_flags i true
                total_entries := sl'.total_entries - 1 },
              dm')
        | none => (-1, sl', dm')

/-- One slot of super_leaf_flush_dirty (lines 706-740): a cached dirty page
is written to its block and its dirty flag cleared; a failed write (block
invalid or out of range) leaves the flag set and is not counted. -/
def flush_step (st : bplus_super_leaf × disk_manager × ℕ) (i : Fin 16) :
    bplus_super_leaf × disk_manager × ℕ :=
  let (sl, dm, n) := st
  if sl.dirty_flags i then
    match sl.cached_sub_pages i with
    | some p =>
        match sl.sub_page_blocks i with
        | some b =>
            match disk_write_sub_page dm b p with
            | some dm' => ({ sl with dirty_flags := Function.update sl.dirty_flags i false }, dm', n + 1)
            | none => (sl, dm, n)
        | none => (sl, dm, n)
    | none => (sl, dm, n)
  else (sl, dm, n)

/-- super_leaf_flush_dirty (lines 706-740): flush every cached dirty
sub-page in slot order, returning the number flushed. -/
def super_leaf_flush_dirty (dm : disk_manager) (sl : bplus_super_leaf) :
    bplus_super_leaf × disk_manager × ℕ :=
  (List.finRange 16).foldl flush_step (sl, dm, 0)

/- ============================================================
   Super-leaf splitting (SSD-tier/lib/bplustree.c, lines 752-986)
   ============================================================ -/

/-- The collection step of consolidate_and_sort (lines 759-794): gather the
pairs of every present read buffer in slot order. -/
def consolidate (bufs : Fin 16 → Option SubPage) : List (ℤ × ℤ) :=
  ((List.finRange 16).map (fun i => (bufs i).getD [])).flatten

/-- One step of the insertion sort of consolidate_and_sort (lines 796-805):
the scan from the right shifts entries with a strictly greater key, so a
pair is inserted after every entry whose key is at most its own. -/
def c_ordered_insert (p : ℤ × ℤ) : List (ℤ × ℤ) → List (ℤ × ℤ)
  | [] => [p]
  | q :: l => if q.1 ≤ p.1 then q :: c_ordered_insert p l else p :: q :: l

/-- consolidate_and_sort (lines 758-809): collect all pairs sub-page by
sub-page, then insertion sort them by key (stable, ascending). -/
def consolidate_and_sort (bufs : Fin 16 → Option SubPage) : List (ℤ × ℤ) :=
  (consolidate bufs).foldl (fun acc p => c_ordered_insert p acc) []

/-- The per-pair body of the redistribution loop (lines 842-861): create the
hash-selected sub-page of the target super-leaf if absent (marking it
dirty); insert the pair, and count it in total_entries when the insert
succeeds (a full page silently drops the pair). -/
def redist_insert (t : bplus_super_leaf) (p : ℤ × ℤ) : bplus_super_leaf :=
  let i := hashIdx p.1
  let pg := (t.cached_sub_pages i).getD []
  let t1 :=
    if (t.cached_sub_pages i).isNone then
      { t with
        cached_sub_pages := Function.update t.cached_sub_pages i (some ([] : SubPage))
        dirty_flags := Function.update t.dirty_flags i true }
    else t
  match sub_page_insert pg p.1 p.2 with
  | some pg' =>
      { t1 with
        cached_sub_pages := Function.update t1.cached_sub_pages i (some pg')
        dirty_flags := Function.update t1.dirty_flags i true
        total_entries := t1.total_entries + 1 }
  | none => t1

/-- The active_sub_pages recomputation at the end of the redistribution
(lines 863-873): index of the last cached slot plus one, or zero. -/
def recompute_active (t : bplus_super_leaf) : bplus_super_leaf :=
  { t with
    active_sub_pages :=
      (List.finRange 16).foldl
        (fun a i => if (t.cached_sub_pages i).isSome then ((i : ℕ) : ℤ) + 1 else a) 0 }

/-- redistribute_pairs_hashed (lines 812-879): pick the median key at index
total_pairs / 2 of the sorted pairs, clear the cached sub-pages and the
entry counters of both super-leaves, then re-insert every pair - keys
strictly below the median into the left leaf, the rest into the right
leaf - at its hash-selected slot, finally recomputing active_sub_pages.
none models the -1 return for an empty pair array. -/
def redistribute_pairs_hashed (pairs : List (ℤ × ℤ))
    (left right : bplus_super_leaf) :
    Option (bplus_super_leaf × bplus_super_leaf × ℤ) :=
  if pairs.isEmpty then none
  else
    let median := (pairs.getD (pairs.length / 2) (0, 0)).1
    let l0 := { left with cached_sub_pages := fun _ => none, total_entries := 0 }
    let r0 := { right with cached_sub_pages := fun _ => none, total_entries := 0 }
    let (l1, r1) :=
      pairs.foldl
        (fun (st : bplus_super_leaf × bplus_super_leaf) p =>
          if p.1 < median then (redist_insert st.1 p, st.2)
          else (st.1, redist_insert st.2 p))
        (l0, r0)
    some (recompute_active l1, recompute_active r1, median)

/-- The read phase of split_super_leaf (lines 892-915): for every slot with
a valid block, take the cached page or read the block; a slot whose block
is invalid, or whose disk read fails, contributes no buffer. -/
def split_read_buffers (dm : disk_manager) (sl : bplus_super_leaf)
    (i : Fin 16) : Option SubPage :=
  match sl.sub_page_blocks i with
  | none => none
  | some b =>
      match sl.cached_sub_pages i with
      | some p => some p
      | none => disk_read_sub_page dm b

/-- The block allocation pass of the write phase (lines 956-967): allocate a
fresh block for every cached sub-page of the right sibling; none models the
abort when the allocator is exhausted. -/
def split_alloc_right : List (Fin 16) → bplus_super_leaf → block_allocator →
    Option (bplus_super_leaf × block_allocator)
  | [], r, a => some (r, a)
  | i :: rest, r, a =>
      if (r.cached_sub_pages i).isSome then
        match allocate_block a with
        | (none, _) => none
        | (some b, a') =>
            split_alloc_right rest
              { r with sub_page_blocks := Function.update r.sub_page_blocks i (some b) } a'
      else split_alloc_right rest r a

/-- split_super_leaf (lines 882-986): read all materialized sub-pages,
consolidate and sort their pairs, create the right sibling, redistribute
around the median, allocate blocks for the right sibling pages, flush the
dirty pages of both sides, and fix the sibling links.  none models the
{0, NULL} failure returns (no materialized sub-page, no pairs, or
allocator exhaustion). -/
def split_super_leaf (dm : disk_manager) (sl : bplus_super_leaf) :
    Option (ℤ × bplus_super_leaf × bplus_super_leaf × disk_manager) :=
  let bufs := split_read_buffers dm sl
  if (List.finRange 16).all (fun i => (bufs i).isNone) then none
  else
    let pairs := consolidate_and_sort bufs
    if pairs.isEmpty then none
    else
      match redistribute_pairs_hashed pairs sl super_leaf_create with
      | none => none
      | some (l1, r1, median) =>
          match split_alloc_right (List.finRange 16) r1 dm.allocator with
          | none => none
          | some (r2, a') =>
              let dm1 := { dm with allocator := a' }
              let (l2, dm2, _) := super_leaf_flush_dirty dm1 l1
              let (r3, dm3, _) := super_leaf_flush_dirty dm2 r2
              some (median,
                { l2 with next_super_leaf := -1 },
                { r3 with next_super_leaf := sl.next_super_leaf, prev_super_leaf := -1 },
                dm3)

/- ============================================================
   SSD B+tree public operations (SSD-tier/lib/bplustree.c, lines 988-1248)
   ============================================================ -/

/-- key_binary_search (lines 27-44) on a sorted key array: the found index,
or minus the insertion position minus one. -/
def key_binary_search (arr : List ℤ) (target : ℤ) : ℤ :=
  let high := ((arr.findIdx? (fun x => target ≤ x)).getD arr.length : ℕ)
  if h : high < arr.length then
    if arr.get ⟨high, h⟩ = target then (high : ℤ) else -(high : ℤ) - 1
  else -(high : ℤ) - 1

/-- The in-memory SSD tree.  The code only ever materializes a single root
internal node with is_leaf_parent set, whose children are super-leaves:
rootKeys models its separator array key[0 .. children-2] and rootLeaves its
child array sub_ptr[0 .. children-1]; an empty rootLeaves models a NULL
root.  Tag, parent and level-list fields that the modelled operations never
read are omitted. -/
structure bplus_tree_ssd where
  rootKeys : List ℤ
  rootLeaves : List bplus_super_leaf
  dm : disk_manager

/-- bplus_tree_search (lines 1009-1054) for the leaf-parent root: binary
search of the separators selects the child super-leaf, which is searched
through its hash-selected sub-page. -/
def bplus_tree_search (t : bplus_tree_ssd) (key : ℤ) : ℤ × bplus_tree_ssd :=
  match t.rootLeaves with
  | [] => (-1, t)
  | _ :: _ =>
      let i := key_binary_search t.rootKeys key
      let idx : ℕ := if 0 ≤ i then i.toNat + 1 else (-i - 1).toNat
      if h : idx < t.rootLeaves.length then
        let sl := t.rootLeaves.get ⟨idx, h⟩
        let (r, sl', dm') := super_leaf_search_hashed t.dm sl key
        (r, { t with rootLeaves := t.rootLeaves.set idx sl', dm := dm' })
      else (-1, t)

/-- update_parent_with_promoted_key (lines 1057-1096): find the insertion
position by scanning the separators from the left, fail when the root is
full (BPLUS_MAX_ORDER = 64 children), otherwise insert the promoted key
and the right sibling after it. -/
def update_parent_with_promoted_key (t : bplus_tree_ssd) (pk : ℤ)
    (right : bplus_super_leaf) : Option bplus_tree_ssd :=
  let pos := (t.rootKeys.takeWhile (fun x => x < pk)).length
  if 64 ≤ t.rootLeaves.length then none
  else
    some { t with
      rootKeys := t.rootKeys.insertIdx pos pk
      rootLeaves := t.rootLeaves.insertIdx (pos + 1) right }

/-- bplus_tree_insert (lines 1099-1163).  An empty tree gets a fresh root
with one super-leaf; otherwise the key is inserted into sub_ptr[0] - the
code always uses the first child - splitting and promoting on the -2
signal and then re-entering the insertion.  The C recursion has no bound;
the fuel argument makes the model total, and every state whose super-leaf
obeys the capacity invariants needs at most one re-entry. -/
def bplus_tree_insert : ℕ → bplus_tree_ssd → ℤ → ℤ → ℤ × bplus_tree_ssd
  | fuel, t, key, data =>
      match t.rootLeaves with
      | [] =>
          let sl := super_leaf_create
          let (r, sl', dm') := super_leaf_insert_hashed t.dm sl key data
          if r = 0 then (0, { rootKeys := [], rootLeaves := [sl'], dm := dm' })
          else (-1, { t with dm := dm' })
      | l0 :: _ =>
          let (r, sl', dm') := super_leaf_insert_hashed t.dm l0 key data
          let t1 : bplus_tree_ssd :=
            { t with rootLeaves := t.rootLeaves.set 0 sl', dm := dm' }
          if r = -2 then
            match split_super_leaf t1.dm sl' with
            | none => (-1, t1)
            | some (median, l2, r2, dm2) =>
                let t2 : bplus_tree_ssd :=
                  { t1 with rootLeaves := t1.rootLeaves.set 0 l2, dm := dm2 }
                match update_parent_with_promoted_key t2 median r2 with
                | none => (-1, t2)
                | some t3 =>
                    match fuel with
                    | 0 => (-1, t3)
                    | fuel' + 1 => bplus_tree_insert fuel' t3 key data
          else (r, t1)

/-- Fuel for the re-entrant insertion; any positive value is enough for
states satisfying the super-leaf capacity invariants, since a split leaves
the left leaf below the fullness threshold. -/
def insert_fuel : ℕ := 16

/-- bplus_tree_ssd_get (lines 1166-1169). -/
def bplus_tree_ssd_get (t : bplus_tree_ssd) (key : ℤ) : ℤ × bplus_tree_ssd :=
  bplus_tree_search t key

/-- bplus_tree_ssd_put (lines 1171-1178): the value 0 is rejected up front
(deletion is unimplemented); any other value is inserted. -/
def bplus_tree_ssd_put (t : bplus_tree_ssd) (key data : ℤ) : ℤ × bplus_tree_ssd :=
  if data = 0 then (-1, t)
  else bplus_tree_insert insert_fuel t key data

/- ============================================================
   Tier router (zipcache.c, zipcache.h)
   ============================================================ -/

/-- The zipcache_result_t codes (zipcache.h, lines 46-54). -/
def ZIPCACHE_OK : ℤ := 0
def ZIPCACHE_RESULT_ERROR : ℤ := -1
def ZIPCACHE_NOT_FOUND : ℤ := -2
def ZIPCACHE_OUT_OF_MEMORY : ℤ := -3
def ZIPCACHE_INVALID_SIZE : ℤ := -4
def ZIPCACHE_IO_ERROR : ℤ := -5
def ZIPCACHE_TOMBSTONE : ℤ := -6

/-- ZIPCACHE_TOMBSTONE_MARKER, the pointer 0xDEADBEEF cast to long. -/
def TOMBSTONE_MARKER : ℤ := 3735928559

/-- The zipcache_obj_type_t classes. -/
inductive ObjType | tiny | medium | large
deriving DecidableEq, Repr

/-- zipcache_hash_key (zipcache.c, lines 572-581): FNV-1a over the key
bytes (a C string of nonzero bytes), with uint32_t wraparound. -/
def zipcache_hash_key (key : List ℕ) : ℕ :=
  key.foldl (fun h b => ((h ^^^ b % 256) * 16777619) % U32) 2166136261

/-- zipcache_checksum (zipcache.c, lines 845-857): per byte, shift the
uint32_t accumulator left by one, xor the byte, then xor the accumulator
shifted right by 16. -/
def zipcache_checksum (data : List ℕ) : ℕ :=
  data.foldl
    (fun c b =>
      let d := ((c * 2) % U32) ^^^ (b % 256)
      d ^^^ (d >>> 16))
    0

/-- Modelled from the spec: the base DRAM B+tree put.  The DRAM-tier file
lib/bplustree.c that defines bplus_tree_init, bplus_tree_put and
bplus_tree_get is absent from the source tree (only its header users and
callers are present), so the operation follows specification section 4.G:
a conventional in-memory ordered map from integer key to integer value,
whose value domain reserves 0 as the deleted marker, so a put of value 0
is a deletion; put returns 0 on success and deleting an absent key
fails (-1). -/
def bplus_tree_put (m : ℕ → Option ℤ) (k : ℕ) (v : ℤ) : ℤ × (ℕ → Option ℤ) :=
  if v = 0 then
    match m k with
    | some _ => (0, fun x => if x = k then none else m x)
    | none => (-1, m)
  else (0, fun x => if x = k then some v else m x)

/-- Modelled from the spec: the base DRAM B+tree get (see bplus_tree_put
above); returns the stored value, or -1 when the key is absent. -/
def bplus_tree_get (m : ℕ → Option ℤ) (k : ℕ) : ℤ :=
  match m k with
  | some v => v
  | none => -1

/-- struct object_pointer (LO-tier/lib/bplustree_lo.h, lines 21-25). -/
structure object_pointer where
  lba : ℕ
  size : ℕ
  checksum : ℕ
deriving DecidableEq, Repr

/-- INVALID_OBJECT_POINTER: all-zero descriptor. -/
def INVALID_OBJECT_POINTER : object_pointer := ⟨0, 0, 0⟩

/-- object_pointer_is_valid (bplustree_lo.h, lines 31-33). -/
def object_pointer_is_valid (p : object_pointer) : Bool :=
  p.lba ≠ 0 || p.size ≠ 0

/-- The LO-tier B+tree (LO-tier/lib/bplustree_lo.c) at its key-descriptor
map interface, which is all the router uses: bplus_tree_lo_put
(lines 504-536 with leaf_insert, lines 143-183) inserts or updates and
rejects an invalid descriptor; bplus_tree_lo_get (lines 91-117) returns
the stored descriptor or INVALID_OBJECT_POINTER; bplus_tree_lo_delete
(lines 539-551 with leaf_remove) removes the key or fails with -1. -/
def bplus_tree_lo_put (m : ℕ → Option object_pointer) (k : ℕ) (p : object_pointer) :
    ℤ × (ℕ → Option object_pointer) :=
  if object_pointer_is_valid p then (0, fun x => if x = k then some p else m x)
  else (-1, m)

/-- bplus_tree_lo_get at the map interface (see bplus_tree_lo_put). -/
def bplus_tree_lo_get (m : ℕ → Option object_pointer) (k : ℕ) : object_pointer :=
  match m k with
  | some p => p
  | none => INVALID_OBJECT_POINTER

/-- bplus_tree_lo_delete at the map interface (see bplus_tree_lo_put). -/
def bplus_tree_lo_delete (m : ℕ → Option object_pointer) (k : ℕ) :
    ℤ × (ℕ → Option object_pointer) :=
  match m k with
  | some _ => (0, fun x => if x = k then none else m x)
  | none => (-1, m)

/-- The SSD-tier tree at its map interface as the router sees it:
bplus_tree_ssd_get returns the stored long value or -1, and
bplus_tree_ssd_put rejects the value 0 with -1 before touching the tree
(SSD-tier/lib/bplustree.c, lines 1166-1178).  The router only ever calls
the put with value 0 (the unimplemented delete path). -/
def ssd_map_get (m : ℕ → Option ℤ) (k : ℕ) : ℤ :=
  match m k with
  | some v => v
  | none => -1

/-- The statistics fields of zipcache_stats_t that the modelled operations
touch (zipcache.h, lines 65-78). -/
structure zipcache_stats where
  hits_dram : ℕ
  hits_lo : ℕ
  hits_ssd : ℕ
  misses : ℕ
  puts_tiny : ℕ
  puts_medium : ℕ
  puts_large : ℕ
  promotions : ℕ
  tombstones : ℕ
  memory_used : ℕ
deriving DecidableEq, Repr

/-- The zipcache_t state used by put, get and delete: the three tier
indexes, the thresholds, the large-object storage file (byte-addressed,
with its append offset) and the statistics.  File descriptors, locks and
the eviction machinery are not observable through these operations. -/
structure zipcache where
  dram : ℕ → Option ℤ
  lo : ℕ → Option object_pointer
  ssd : ℕ → Option ℤ
  tiny_threshold : ℕ
  medium_threshold : ℕ
  file : ℕ → ℕ
  ssd_offset : ℕ
  stats : zipcache_stats

/-- zipcache_classify_object (zipcache.c, lines 284-294). -/
def zipcache_classify_object (c : zipcache) (size : ℕ) : ObjType :=
  if size ≤ c.tiny_threshold then .tiny
  else if size ≤ c.medium_threshold then .medium
  else .large

/-- The bytes [lba, lba + size) of the storage file. -/
def readBytes (file : ℕ → ℕ) (lba size : ℕ) : List ℕ :=
  (List.range size).map (fun j => file (lba + j))

/-- zipcache_write_large_object (zipcache.c, lines 745-799): round the size
up to a 4 KiB multiple, write the payload followed by zero padding at the
current append offset, advance the offset, and fill the descriptor with
the write offset, the uint32_t-truncated size and the payload checksum.
Allocation and I/O failures are not modelled (the storage file is total);
the timestamp is not modelled. -/
def zipcache_write_large_object (c : zipcache) (value : List ℕ) :
    zipcache × object_pointer :=
  let size := value.length
  let aligned := ((size + 4095) / 4096) * 4096
  let lba := c.ssd_offset
  let file' := fun x =>
    if lba ≤ x ∧ x < lba + aligned then
      if x - lba < size then value.getD (x - lba) 0 else 0
    else c.file x
  ({ c with file := file', ssd_offset := c.ssd_offset + aligned },
    { lba := lba, size := size % U32, checksum := zipcache_checksum value })

/-- zipcache_read_large_object (zipcache.c, lines 801-843): read
descriptor.size bytes at descriptor.lba, verify the checksum, and return
the buffer; a mismatch is IO_ERROR and returns no buffer. -/
def zipcache_read_large_object (c : zipcache) (d : object_pointer) :
    ℤ × Option (List ℕ) :=
  let buf := readBytes c.file d.lba d.size
  if zipcache_checksum buf = d.checksum then (ZIPCACHE_OK, some buf)
  else (ZIPCACHE_IO_ERROR, none)

/-- zipcache_invalidate_stale (zipcache.c, lines 672-699): a tiny or medium
put removes any descriptor for the key from the LO tier. -/
def zipcache_invalidate_stale (c : zipcache) (h : ℕ) (newType : ObjType) : zipcache :=
  match newType with
  | .large => c
  | _ =>
      if object_pointer_is_valid (bplus_tree_lo_get c.lo h) then
        { c with lo := (bplus_tree_lo_delete c.lo h).2 }
      else c

/-- zipcache_route_put (zipcache.c, lines 296-384).  ptr is the callers
value pointer cast to long, which is what the DRAM tree stores for tiny
and medium objects; value holds the payload bytes it points to. -/
def zipcache_route_put (c : zipcache) (key : List ℕ) (value : List ℕ) (ptr : ℤ)
    (ty : ObjType) : ℤ × zipcache :=
  let h := zipcache_hash_key key
  match ty with
  | .tiny | .medium =>
      let (r, dram') := bplus_tree_put c.dram h ptr
      if r = 0 then
        let c1 := { c with dram := dram' }
        let c2 := { c1 with
          stats :=
            if ty = .tiny then
              { c1.stats with
                puts_tiny := c1.stats.puts_tiny + 1
                memory_used := c1.stats.memory_used + value.length }
            else
              { c1.stats with
                puts_medium := c1.stats.puts_medium + 1
                memory_used := c1.stats.memory_used + value.length } }
        (ZIPCACHE_OK, zipcache_invalidate_stale c2 h ty)
      else (ZIPCACHE_RESULT_ERROR, { c with dram := dram' })
  | .large =>
      let (c1, desc) := zipcache_write_large_object c value
      let (r, lo') := bplus_tree_lo_put c1.lo h desc
      if r = 0 then
        let c2 := { c1 with
          lo := lo'
          stats := { c1.stats with puts_large := c1.stats.puts_large + 1 } }
        let (_, dram') := bplus_tree_put c2.dram h TOMBSTONE_MARKER
        let c3 := { c2 with
          dram := dram'
          stats := { c2.stats with tombstones := c2.stats.tombstones + 1 } }
        (ZIPCACHE_OK, c3)
      else (ZIPCACHE_RESULT_ERROR, { c1 with lo := lo' })

/-- ZIPCACHE_MAX_KEY_SIZE (zipcache.h, line 30). -/
def ZIPCACHE_MAX_KEY_SIZE : ℕ := 256

/-- zipcache_put (zipcache.c, lines 390-425): argument checks (a zero size
or a null value pointer is ERROR, an over-long key INVALID_SIZE), then
classification and routing.  The size argument of the C call always equals
the payload length in the modelled runs, so it is value.length here. -/
def zipcache_put (c : zipcache) (key : List ℕ) (value : List ℕ) (ptr : ℤ) :
    ℤ × zipcache :=
  if value.length = 0 ∨ ptr = 0 then (ZIPCACHE_RESULT_ERROR, c)
  else if ZIPCACHE_MAX_KEY_SIZE < key.length then (ZIPCACHE_INVALID_SIZE, c)
  else zipcache_route_put c key value ptr (zipcache_classify_object c value.length)

/-- What a coordinated read hands back through its out parameters: the
result code, the long value written to *value for DRAM and SSD hits, the
freshly read buffer for LO hits, and *size. -/
structure read_out where
  res : ℤ
  ptrOut : Option ℤ
  bytesOut : Option (List ℕ)
  sizeOut : ℕ
  cache : zipcache

/-- zipcache_coordinated_read (zipcache.c, lines 456-544).  Step 1: a DRAM
value above 0 is either the tombstone (count a miss, return TOMBSTONE) or
a DRAM hit returned with size 0.  Step 2: a valid LO descriptor is read
and verified; only a successful read returns (HIT from LO); a failed read
falls through.  Step 3: an SSD value above 0 is a hit with size 0 and is
always promoted into the DRAM tree (the promotion gate compares the
already-zeroed *size with the medium threshold).  Step 4: a miss. -/
def zipcache_coordinated_read (c : zipcache) (key : List ℕ) : read_out :=
  let h := zipcache_hash_key key
  let dram_result := bplus_tree_get c.dram h
  if 0 < dram_result then
    if dram_result = TOMBSTONE_MARKER then
      { res := ZIPCACHE_TOMBSTONE, ptrOut := none, bytesOut := none, sizeOut := 0
        cache := { c with stats := { c.stats with misses := c.stats.misses + 1 } } }
    else
      { res := ZIPCACHE_OK, ptrOut := some dram_result, bytesOut := none, sizeOut := 0
        cache := { c with stats := { c.stats with hits_dram := c.stats.hits_dram + 1 } } }
  else
    let optr := bplus_tree_lo_get c.lo h
    let step3 : read_out :=
      let ssd_result := ssd_map_get c.ssd h
      if 0 < ssd_result then
        let c1 := { c with stats := { c.stats with hits_ssd := c.stats.hits_ssd + 1 } }
        let (_, dram') := bplus_tree_put c1.dram h ssd_result
        let c2 := { c1 with
          dram := dram'
          stats := { c1.stats with promotions := c1.stats.promotions + 1 } }
        { res := ZIPCACHE_OK, ptrOut := some ssd_result, bytesOut := none, sizeOut := 0
          cache := c2 }
      else
        { res := ZIPCACHE_NOT_FOUND, ptrOut := none, bytesOut := none, sizeOut := 0
          cache := { c with stats := { c.stats with misses := c.stats.misses + 1 } } }
    if object_pointer_is_valid optr then
      match zipcache_read_large_object c optr with
      | (r, some buf) =>
          if r = ZIPCACHE_OK then
            { res := ZIPCACHE_OK, ptrOut := none, bytesOut := some buf
              sizeOut := optr.size
              cache := { c with stats := { c.stats with hits_lo := c.stats.hits_lo + 1 } } }
          else step3
      | (_, none) => step3
    else step3

/-- zipcache_get (zipcache.c, lines 427-450): the key-length check, then
the coordinated read. -/
def zipcache_get (c : zipcache) (key : List ℕ) : read_out :=
  if ZIPCACHE_MAX_KEY_SIZE < key.length then
    { res := ZIPCACHE_INVALID_SIZE, ptrOut := none, bytesOut := none, sizeOut := 0
      cache := c }
  else zipcache_coordinated_read c key

/-- zipcache_delete (zipcache.c, lines 701-739): delete from the DRAM tier
by putting the value 0, delete from the LO tier, and attempt the SSD-tier
delete through bplus_tree_ssd_put with value 0, which always fails with -1
and changes nothing; OK if any tier reported a successful delete, else
NOT_FOUND.  No statistics are touched. -/
def zipcache_delete (c : zipcache) (key : List ℕ) : ℤ × zipcache :=
  let h := zipcache_hash_key key
  let (dram_result, dram') := bplus_tree_put c.dram h 0
  let (lo_result, lo') := bplus_tree_lo_delete c.lo h
  let ssd_result : ℤ := -1
  let r := if dram_result = 0 ∨ lo_result = 0 ∨ ssd_result = 0
    then ZIPCACHE_OK else ZIPCACHE_NOT_FOUND
  (r, { c with dram := dram', lo := lo' })

/- ============================================================
   Concrete fixtures used by the witnesses and counterexamples
   ============================================================ -/

/-- A fresh zipcache state as built by zipcache_init_ex with the given
thresholds: empty tiers, zeroed statistics, append offset zero, and the
storage file reading as zeros. -/
def zc_init (tiny medium : ℕ) : zipcache :=
  { dram := fun _ => none
    lo := fun _ => none
    ssd := fun _ => none
    tiny_threshold := tiny
    medium_threshold := medium
    file := fun _ => 0
    ssd_offset := 0
    stats := ⟨0, 0, 0, 0, 0, 0, 0, 0, 0, 0⟩ }

/-- A small disk manager for the super-leaf runs: 64 zeroed blocks. -/
def dm64 : disk_manager :=
  { allocator := block_allocator_init 64
    total_4kb_blocks := 64
    disk := fun _ => [] }

/-- The sum of header.entries over the materialized (cached) sub-pages of a
super-leaf, the quantity the total_entries invariant compares against. -/
def cached_entries_sum (sl : bplus_super_leaf) : ℤ :=
  (((List.finRange 16).map (fun i => (((sl.cached_sub_pages i).getD []).length : ℤ))).sum)

/-- The state after inserting key 5 with value 100 into a fresh super-leaf. -/
def c7_run1 : ℤ × bplus_super_leaf × disk_manager :=
  super_leaf_insert_hashed dm64 super_leaf_create 5 100

/-- The state after then inserting key 5 again, now with value 200 (an
update in place of the single entry). -/
def c7_run2 : ℤ × bplus_super_leaf × disk_manager :=
  super_leaf_insert_hashed c7_run1.2.2 c7_run1.2.1 5 200

/-- A full sub-page for slot 0: 340 sorted (key, 1) entries whose keys are
exactly the first 340 nonnegative ints hashing to sub-page 0 of 16, so the
page is a state the hashed insert path itself can build. -/
def c8_page : SubPage :=
  [
    (0, 1), (29, 1), (41, 1), (80, 1), (83, 1), (112, 1), (115, 1), (123, 1), (140, 1), (147, 1),
    (160, 1), (189, 1), (197, 1), (208, 1), (224, 1), (280, 1), (310, 1), (311, 1), (320, 1), (374, 1),
    (394, 1), (416, 1), (427, 1), (448, 1), (476, 1), (536, 1), (542, 1), (550, 1), (560, 1), (584, 1),
    (592, 1), (595, 1), (616, 1), (620, 1), (624, 1), (640, 1), (646, 1), (648, 1), (665, 1), (704, 1),
    (710, 1), (748, 1), (749, 1), (752, 1), (755, 1), (788, 1), (790, 1), (832, 1), (835, 1), (854, 1),
    (872, 1), (874, 1), (886, 1), (896, 1), (944, 1), (952, 1), (958, 1), (959, 1), (989, 1), (1001, 1),
    (1040, 1), (1042, 1), (1072, 1), (1084, 1), (1100, 1), (1120, 1), (1124, 1), (1184, 1), (1190, 1), (1197, 1),
    (1208, 1), (1232, 1), (1240, 1), (1264, 1), (1270, 1), (1280, 1), (1292, 1), (1293, 1), (1296, 1), (1297, 1),
    (1353, 1), (1354, 1), (1381, 1), (1437, 1), (1465, 1), (1469, 1), (1501, 1), (1502, 1), (1504, 1), (1510, 1),
    (1536, 1), (1543, 1), (1544, 1), (1549, 1), (1551, 1), (1552, 1), (1584, 1), (1600, 1), (1625, 1), (1629, 1),
    (1664, 1), (1670, 1), (1709, 1), (1712, 1), (1719, 1), (1748, 1), (1749, 1), (1772, 1), (1773, 1), (1789, 1),
    (1792, 1), (1797, 1), (1832, 1), (1833, 1), (1834, 1), (1917, 1), (1918, 1), (1945, 1), (1949, 1), (1959, 1),
    (1961, 1), (1965, 1), (2001, 1), (2002, 1), (2029, 1), (2043, 1), (2044, 1), (2080, 1), (2085, 1), (2109, 1),
    (2117, 1), (2125, 1), (2142, 1), (2157, 1), (2199, 1), (2200, 1), (2253, 1), (2257, 1), (2313, 1), (2333, 1),
    (2341, 1), (2397, 1), (2421, 1), (2425, 1), (2429, 1), (2445, 1), (2453, 1), (2461, 1), (2503, 1), (2509, 1),
    (2511, 1), (2544, 1), (2560, 1), (2585, 1), (2586, 1), (2589, 1), (2593, 1), (2594, 1), (2622, 1), (2626, 1),
    (2669, 1), (2679, 1), (2706, 1), (2709, 1), (2749, 1), (2757, 1), (2792, 1), (2793, 1), (2794, 1), (2847, 1),
    (2876, 1), (2877, 1), (2905, 1), (2909, 1), (2919, 1), (2921, 1), (2925, 1), (2954, 1), (2958, 1), (2960, 1),
    (2961, 1), (2962, 1), (2989, 1), (3002, 1), (3003, 1), (3018, 1), (3042, 1), (3045, 1), (3077, 1), (3098, 1),
    (3101, 1), (3102, 1), (3117, 1), (3159, 1), (3200, 1), (3242, 1), (3258, 1), (3274, 1), (3338, 1), (3354, 1),
    (3356, 1), (3357, 1), (3389, 1), (3405, 1), (3422, 1), (3438, 1), (3440, 1), (3498, 1), (3503, 1), (3504, 1),
    (3546, 1), (3553, 1), (3554, 1), (3578, 1), (3582, 1), (3586, 1), (3594, 1), (3639, 1), (3666, 1), (3690, 1),
    (3722, 1), (3750, 1), (3752, 1), (3754, 1), (3807, 1), (3834, 1), (3836, 1), (3863, 1), (3885, 1), (3890, 1),
    (3914, 1), (3920, 1), (3921, 1), (3922, 1), (3930, 1), (3947, 1), (3962, 1), (3963, 1), (3978, 1), (4002, 1),
    (4004, 1), (4005, 1), (4046, 1), (4058, 1), (4062, 1), (4086, 1), (4088, 1), (4103, 1), (4160, 1), (4170, 1),
    (4202, 1), (4226, 1), (4234, 1), (4250, 1), (4254, 1), (4258, 1), (4314, 1), (4315, 1), (4316, 1), (4343, 1),
    (4400, 1), (4427, 1), (4431, 1), (4463, 1), (4464, 1), (4505, 1), (4506, 1), (4511, 1), (4514, 1), (4546, 1),
    (4554, 1), (4587, 1), (4599, 1), (4631, 1), (4650, 1), (4673, 1), (4682, 1), (4710, 1), (4714, 1), (4734, 1),
    (4759, 1), (4794, 1), (4795, 1), (4807, 1), (4823, 1), (4839, 1), (4849, 1), (4850, 1), (4879, 1), (4880, 1),
    (4882, 1), (4907, 1), (4922, 1), (4923, 1), (4963, 1), (4964, 1), (5005, 1), (5006, 1), (5047, 1), (5048, 1),
    (5063, 1), (5079, 1), (5087, 1), (5089, 1), (5104, 1), (5111, 1), (5120, 1), (5131, 1), (5153, 1), (5159, 1),
    (5161, 1), (5162, 1), (5255, 1), (5275, 1), (5303, 1), (5329, 1), (5383, 1), (5387, 1), (5391, 1), (5399, 1),
    (5423, 1), (5465, 1), (5471, 1), (5473, 1), (5506, 1), (5527, 1), (5547, 1), (5548, 1), (5555, 1), (5559, 1),
    (5584, 1), (5591, 1), (5611, 1), (5633, 1), (5639, 1), (5668, 1), (5713, 1), (5719, 1), (5735, 1), (5752, 1)
  ]

/-- A super-leaf whose slot 0 is materialized with the full page c8_page
and whose total_entries is the actual entry count 340, far below the 90
percent fullness threshold 4896. -/
def c8_leaf : bplus_super_leaf :=
  { super_leaf_create with
    sub_page_blocks := Function.update super_leaf_create.sub_page_blocks 0 (some 0)
    cached_sub_pages := Function.update super_leaf_create.cached_sub_pages 0 (some c8_page)
    total_entries := 340 }

/-- The same super-leaf with total_entries at the fullness threshold. -/
def c8_leaf_full : bplus_super_leaf :=
  { c8_leaf with total_entries := 4896 }

/-- The run behind the C1 and C4 analyses: with thresholds tiny = 1 and
medium = 2 (as set by zipcache_init_ex), a put of the 3-byte value
[1, 2, 3] under the key k (byte 107) is classified LARGE; ptr 1000 stands
for the callers value pointer. -/
def c1_put : ℤ × zipcache := zipcache_put (zc_init 1 2) [107] [1, 2, 3] 1000

/-- The C3 run: with thresholds tiny = 1, medium = 2, put the 4-byte value
[5, 6, 7, 8] (LARGE) under key d (byte 100). -/
def c3_put_large : ℤ × zipcache := zipcache_put (zc_init 1 2) [100] [5, 6, 7, 8] 2000

/-- The C3 tiny run: into the state after c3_put_large, put the 1-byte
value [9] (TINY) under key e (byte 101), with value pointer 3000. -/
def c3_put_tiny : ℤ × zipcache := zipcache_put c3_put_large.2 [101] [9] 3000

/-- The descriptor of a 3-byte large object at lba 0 whose payload was
[1, 2, 3] (checksum 3). -/
def c2_desc : object_pointer := ⟨0, 3, 3⟩

/-- A cache state whose LO index maps key k to c2_desc but whose storage
file was corrupted to read [9, 9, 9] (checksum 63, not 3) at [0, 3); the
DRAM and SSD tiers are empty. -/
def c2_state : zipcache :=
  { zc_init 128 2048 with
    lo := fun x => if x = zipcache_hash_key [107] then some c2_desc else none
    file := fun x => if x < 3 then 9 else 0 }

/-- The same corrupted state with an SSD-tier entry 42 for the key. -/
def c2_state_ssd : zipcache :=
  { c2_state with
    ssd := fun x => if x = zipcache_hash_key [107] then some 42 else none }

/-- A cache state whose only entry for key k lives in the SSD tier. -/
def c5_state : zipcache :=
  { zc_init 128 2048 with
    ssd := fun x => if x = zipcache_hash_key [107] then some 7 else none }

/-- The page built by inserting a list of pairs in order into an empty
sub-page, which is what the redistribution loop produces per slot. -/
def build_page (l : List (ℤ × ℤ)) : SubPage :=
  l.foldl (fun pg e => sp_insert_sorted e.1 e.2 pg) []

/-- The class of a pair during redistribution: the side it goes to
(true = left, key below the median) and its hash-selected slot. -/
def redist_class (median : ℤ) (s : Bool) (i : Fin 16) (e : ℤ × ℤ) : Bool :=
  (decide (e.1 < median) == s) && (hashIdx e.1 == i)

/-- The cached sub-page the redistribution loop leaves in a slot: none if
no pair of that class was seen, else the page built from them in order. -/
def pageOpt (median : ℤ) (s : Bool) (i : Fin 16) (l : List (ℤ × ℤ)) : Option SubPage :=
  if (l.filter (redist_class median s i)).isEmpty then none
  else some (build_page (l.filter (redist_class median s i)))

/-- The side a pair goes to during redistribution, as a predicate:
true selects the left leaf (key strictly below the median). -/
def side_pred (median : ℤ) (s : Bool) (e : ℤ × ℤ) : Bool :=
  decide (e.1 < median) == s

/-- A six-entry super-leaf used as the concrete C6 split run: each key
sits in its hash slot (0 at 0, 1 at 1, 3 at 2, 2 at 3, and 4, 5 at 7),
with blocks 0 to 4 backing the five materialized slots. -/
def c6_leaf : bplus_super_leaf :=
  { super_leaf_create with
    total_entries := 6
    sub_page_blocks := fun i =>
      if i = (0 : Fin 16) then some 0
      else if i = (1 : Fin 16) then some 1
      else if i = (2 : Fin 16) then some 2
      else if i = (3 : Fin 16) then some 3
      else if i = (7 : Fin 16) then some 4
      else none
    cached_sub_pages := fun i =>
      if i = (0 : Fin 16) then some [(0, 10)]
      else if i = (1 : Fin 16) then some [(1, 11)]
      else if i = (2 : Fin 16) then some [(3, 30)]
      else if i = (3 : Fin 16) then some [(2, 20)]
      else if i = (7 : Fin 16) then some [(4, 40), (5, 50)]
      else none
    dirty_flags := fun _ => true }

/-- The concrete outcome of the C6 split run, used to instantiate the
split theorem. -/
def c6_out : ℤ × bplus_super_leaf × bplus_super_leaf × disk_manager :=
  (split_super_leaf dm64 c6_leaf).getD (0, super_leaf_create, super_leaf_create, dm64)

/- ============================================================
   Theorems
   ============================================================ -/

/-- C10: for every SSD tree and key, bplus_tree_ssd_put with the reserved
value 0 returns -1 and leaves the tree unchanged, so the value 0 can never
be stored and the router's delete path (a put of 0) never removes or
overwrites an SSD-tier entry. -/
theorem ssd_put_zero_rejected (t : bplus_tree_ssd) (key : ℤ) :
    bplus_tree_ssd_put t key 0 = (-1, t) := by
  simp [bplus_tree_ssd_put]

/-- C7: the total_entries invariant is broken by an insert of a key that is
already present.  Starting from a fresh super-leaf, inserting (5, 100) and
then (5, 200) both succeed (return 0), yet total_entries ends at 2 while
the materialized sub-pages hold a single entry, so total_entries no longer
equals the sum of header.entries over the cached sub-pages:
super_leaf_insert_hashed increments total_entries also when sub_page_insert
only updated in place. -/
theorem super_leaf_duplicate_insert_breaks_total :
    c7_run1.1 = 0 ∧ c7_run2.1 = 0 ∧
    (c7_run2.2.1).total_entries = 2 ∧
    cached_entries_sum c7_run2.2.1 = 1 := by
  decide


/-- C8 counterexample: inserting into a super-leaf whose hash-selected
target sub-page is full does NOT always fail with -2.  In c8_leaf the
target sub-page of key 5755 (slot 0) is full - all 340 of its keys, like
5755 itself, hash to slot 0 - but total_entries is 340, far below
0.9 * 16 * 340 = 4896, so super_leaf_insert_hashed returns the plain
failure -1, not the split-required signal -2. -/
theorem full_subpage_without_full_leaf_returns_minus_one :
    sub_page_is_full c8_page = true ∧
    c8_leaf.cached_sub_pages (hashIdx 5755) = some c8_page ∧
    c8_page.all (fun e => hash_key_to_sub_page e.1 16 = 0) = true ∧
    super_leaf_is_full c8_leaf = false ∧
    (super_leaf_insert_hashed dm64 c8_leaf 5755 7).1 = -1 ∧
    ((-1 : ℤ) ≠ -2) := by
  refine ⟨by decide, by decide, by decide, by decide, by decide, by decide⟩

/-- C8 amended: when the hash-selected target sub-page of the key is
materialized (in cache, or on disk under a readable block) and full, the
insert fails with -2 exactly when the super-leaf is full, that is when
total_entries has reached 0.9 * 16 * 340 = 4896, and with -1 otherwise;
in particular a super-leaf at 90 percent capacity or more answers the next
insert that targets a full sub-page with the split-required signal. -/
theorem full_subpage_insert_result (dm : disk_manager) (sl : bplus_super_leaf)
    (k v : ℤ) (p : SubPage)
    (htgt : sl.cached_sub_pages (hashIdx k) = some p ∨
      (sl.cached_sub_pages (hashIdx k) = none ∧
        ∃ b, sl.sub_page_blocks (hashIdx k) = some b ∧ b < dm.total_4kb_blocks ∧
          dm.disk b = p))
    (hfull : sub_page_is_full p = true) :
    (super_leaf_insert_hashed dm sl k v).1 =
      (if super_leaf_is_full sl then -2 else -1) := by
  rcases htgt with hc | ⟨hc, b, hb, hlt, hdisk⟩
  · simp only [super_leaf_insert_hashed, super_leaf_load_sub_page_by_hash, hc, hfull,
      if_true, super_leaf_is_full]
    split <;> simp
  · simp only [super_leaf_insert_hashed, super_leaf_load_sub_page_by_hash, hc, hb,
      disk_read_sub_page, hlt, if_true, hdisk, hfull, super_leaf_is_full]
    split <;> simp

/-- C8 witness: at the concrete full sub-page of c8_leaf_full, whose
total_entries is 4896, the hypotheses of the amended theorem hold and the
insert answers -2. -/
theorem full_subpage_insert_result_witness :
    sub_page_is_full c8_page = true ∧
    c8_leaf_full.cached_sub_pages (hashIdx 5755) = some c8_page ∧
    super_leaf_is_full c8_leaf_full = true ∧
    (super_leaf_insert_hashed dm64 c8_leaf_full 5755 7).1 =
      (if super_leaf_is_full c8_leaf_full then -2 else -1) :=
  ⟨by decide, by decide, by decide,
    full_subpage_insert_result dm64 c8_leaf_full 5755 7 c8_page
      (Or.inl (by decide)) (by decide)⟩


/-- A failed allocate_block leaves the allocator unchanged. -/
lemma allocate_block_fail {a a' : block_allocator}
    (h : allocate_block a = (none, a')) : a' = a := by
  unfold allocate_block at h
  split at h
  · simp only [Prod.mk.injEq] at h; exact h.2.symm
  · split at h
    · simp only [Prod.mk.injEq] at h; exact h.2.symm
    · simp only [Prod.mk.injEq] at h; exact absurd h.1 (by simp)

/-- A successful allocate_block hands out a previously clear in-range bit,
sets exactly that bit, and bumps the uint32_t counter. -/
lemma allocate_block_success {a a' : block_allocator} {b : ℕ}
    (h : allocate_block a = (some b, a')) :
    a.bitmap b = false ∧ b < a.total_blocks ∧
    a'.bitmap = (fun x => if x = b then true else a.bitmap x) ∧
    a'.allocated_blocks = (a.allocated_blocks + 1) % U32 ∧
    a'.total_blocks = a.total_blocks ∧
    a'.next_search_hint = (b + 1) % a.total_blocks := by
  unfold allocate_block at h
  split at h
  · simp at h
  next hlt =>
    split at h
    · simp at h
    next i hfind =>
      simp only [Prod.mk.injEq, Option.some.injEq] at h
      obtain ⟨hb, ha'⟩ := h
      have hp := List.find?_some hfind
      subst ha'
      subst hb
      refine ⟨by simpa using hp, Nat.mod_lt _ (by omega), rfl, rfl, rfl, rfl⟩

/-- C9 helper: the uint32_t decrement undoes the uint32_t increment. -/
lemma u32_dec_inc (m : ℕ) : ((m + 1) % U32 + (U32 - 1)) % U32 = m % U32 := by
  simp only [U32]
  omega

/-- Freeing a block whose bit is clear is a no-op. -/
lemma free_block_noop {a : block_allocator} {b : ℕ} (h : a.bitmap b = false) :
    free_block a b = a := by
  unfold free_block
  split
  · rfl
  · simp [h]

/-- C9 helper: the uint32_t increment chains up. -/
lemma u32_inc_mod (m n : ℕ) : ((m + n) % U32 + 1) % U32 = (m + (n + 1)) % U32 := by
  simp only [U32]
  omega

/-- Rolling back a distinct list of blocks that were clear in the original
allocator a0, and are exactly the extra set bits of the current allocator,
restores the bitmap and counter of a0. -/
lemma rollback_restores (a0 : block_allocator) (h0 : a0.allocated_blocks < U32) :
    ∀ (L : List ℕ) (a : block_allocator),
      (∀ x, a.bitmap x = (decide (x ∈ L) || a0.bitmap x)) →
      L.Nodup →
      (∀ b ∈ L, b < a0.total_blocks ∧ a0.bitmap b = false) →
      a.total_blocks = a0.total_blocks →
      a.allocated_blocks = (a0.allocated_blocks + L.length) % U32 →
      (L.foldl free_block a).bitmap = a0.bitmap ∧
      (L.foldl free_block a).allocated_blocks = a0.allocated_blocks ∧
      (L.foldl free_block a).total_blocks = a0.total_blocks
  | [], a, hbit, _, _, htot, hcnt => by
      refine ⟨funext fun x => by simpa using hbit x, ?_, htot⟩
      simpa [Nat.mod_eq_of_lt h0] using hcnt
  | b :: L', a, hbit, hnd, hmem, htot, hcnt => by
      have hbmem : b < a0.total_blocks ∧ a0.bitmap b = false :=
        hmem b (List.mem_cons_self b L')
      have hset : a.bitmap b = true := by
        rw [hbit b]; simp
      have hnotmem : b ∉ L' := (List.nodup_cons.mp hnd).1
      have hstep : free_block a b =
          { a with
            bitmap := fun x => if x = b then false else a.bitmap x
            allocated_blocks := (a.allocated_blocks + (U32 - 1)) % U32 } := by
        unfold free_block
        rw [if_neg (by omega), if_pos hset]
      have hfold : (b :: L').foldl free_block a = L'.foldl free_block (free_block a b) := rfl
      rw [hfold, hstep]
      refine rollback_restores a0 h0 L' _ ?_ (List.nodup_cons.mp hnd).2
        (fun c hc => hmem c (List.mem_cons_of_mem _ hc)) htot ?_
      · intro x
        by_cases hx : x = b
        · subst hx
          simp [hnotmem, hbmem.2]
        · simp only [hx, if_false]
          rw [hbit x]
          simp [hx]
      · simp only [hcnt, List.length_cons]
        exact u32_dec_inc _

/-- The invariant-carrying specification of the allocation loop of
allocate_multiple_blocks: from a state whose extra set bits are exactly
the accumulator, either the loop succeeds and the returned ids are
distinct, previously clear, in-range blocks - with the bitmap and counter
advanced accordingly - or it fails and the rollback restores the original
bitmap and counter. -/
lemma amb_loop_spec (a0 : block_allocator) (h0 : a0.allocated_blocks < U32) :
    ∀ (n : ℕ) (a : block_allocator) (acc : List ℕ),
      (∀ x, a.bitmap x = (decide (x ∈ acc) || a0.bitmap x)) →
      acc.Nodup →
      (∀ b ∈ acc, b < a0.total_blocks ∧ a0.bitmap b = false) →
      a.total_blocks = a0.total_blocks →
      a.allocated_blocks = (a0.allocated_blocks + acc.length) % U32 →
      (∀ ids a', amb_loop n a acc = (some ids, a') →
          ids.Nodup ∧
          (∀ b ∈ ids, b < a0.total_blocks ∧ a0.bitmap b = false) ∧
          (∀ x, a'.bitmap x = (decide (x ∈ ids) || a0.bitmap x)) ∧
          a'.total_blocks = a0.total_blocks ∧
          ids.length = acc.length + n ∧
          a'.allocated_blocks = (a0.allocated_blocks + ids.length) % U32) ∧
      (∀ a', amb_loop n a acc = (none, a') →
          a'.bitmap = a0.bitmap ∧ a'.allocated_blocks = a0.allocated_blocks ∧
          a'.total_blocks = a0.total_blocks)
  | 0, a, acc, hbit, hnd, hmem, htot, hcnt => by
      constructor
      · intro ids a' h
        simp only [amb_loop, Prod.mk.injEq, Option.some.injEq] at h
        obtain ⟨hids, ha⟩ := h
        subst hids
        subst ha
        refine ⟨List.nodup_reverse.mpr hnd, ?_, ?_, htot, by simp, by simpa using hcnt⟩
        · intro b hb
          exact hmem b (List.mem_reverse.mp hb)
        · intro x
          rw [hbit x]
          simp [List.mem_reverse]
      · intro a' h
        simp only [amb_loop, Prod.mk.injEq] at h
        exact absurd h.1 (by simp)
  | n + 1, a, acc, hbit, hnd, hmem, htot, hcnt => by
      have hloop : amb_loop (n + 1) a acc =
          match allocate_block a with
          | (none, a') => (none, acc.reverse.foldl free_block a')
          | (some b, a') => amb_loop n a' (b :: acc) := rfl
      rcases hab : allocate_block a with ⟨r, a1⟩
      cases r with
      | none =>
          have ha1 : a1 = a := allocate_block_fail hab
          rw [hloop, hab, ha1]
          constructor
          · intro ids a' h
            simp at h
          · intro a' h
            simp only [Prod.mk.injEq] at h
            have hroll := rollback_restores a0 h0 acc.reverse a
              (fun x => by rw [hbit x]; simp [List.mem_reverse])
              (List.nodup_reverse.mpr hnd)
              (fun b hb => hmem b (List.mem_reverse.mp hb)) htot
              (by simpa using hcnt)
            rw [← h.2]
            exact hroll
      | some b =>
          obtain ⟨hclear, hblt, hbm, hcn, htt, _⟩ := allocate_block_success hab
          have hbacc : b ∉ acc := by
            have hx := hbit b
            rw [hclear] at hx
            by_contra hmemb
            simp [hmemb] at hx
          have hb0 : a0.bitmap b = false := by
            have hx := hbit b
            rw [hclear] at hx
            simpa [hbacc] using hx.symm
          have inv1 : ∀ x, a1.bitmap x = (decide (x ∈ b :: acc) || a0.bitmap x) := by
            intro x
            rw [hbm]
            by_cases hx : x = b
            · subst hx
              simp
            · simp only [hx, if_false]
              rw [hbit x]
              simp [hx]
          have inv2 : (b :: acc).Nodup := List.nodup_cons.mpr ⟨hbacc, hnd⟩
          have inv3 : ∀ c ∈ b :: acc, c < a0.total_blocks ∧ a0.bitmap c = false := by
            intro c hc
            rcases List.mem_cons.mp hc with hcb | hcacc
            · subst hcb
              rw [htot] at hblt
              exact ⟨hblt, hb0⟩
            · exact hmem c hcacc
          have inv4 : a1.total_blocks = a0.total_blocks := by rw [htt, htot]
          have inv5 : a1.allocated_blocks = (a0.allocated_blocks + (b :: acc).length) % U32 := by
            rw [hcn, hcnt]
            simp only [List.length_cons]
            exact u32_inc_mod _ _
          have hrec := amb_loop_spec a0 h0 n a1 (b :: acc) inv1 inv2 inv3 inv4 inv5
          rw [hloop, hab]
          constructor
          · intro ids a' h
            obtain ⟨x1, x2, x3, x4, x5, x6⟩ := hrec.1 ids a' h
            refine ⟨x1, x2, x3, x4, ?_, x6⟩
            rw [x5]
            simp only [List.length_cons]
            omega
          · intro a' h
            exact hrec.2 a' h


/-- C9: allocate_multiple_blocks either allocates exactly n previously
free, distinct, in-range blocks - setting exactly their bitmap bits and
increasing allocated_blocks by n (as a uint32_t, and exactly when no wrap
occurs) - or returns -1 with the bitmap and the allocated_blocks counter
both restored to their values before the call, every block allocated in
the failed attempt having been rolled back; and freeing a block whose bit
is clear (a double free) is a no-op. -/
theorem allocate_multiple_blocks_spec (a : block_allocator) (n : ℕ)
    (hrep : a.allocated_blocks < U32) :
    ((allocate_multiple_blocks a n).1 = 0 →
      ∃ ids, (allocate_multiple_blocks a n).2.2 = some ids ∧
        ids.length = n ∧ ids.Nodup ∧
        (∀ b ∈ ids, b < a.total_blocks ∧ a.bitmap b = false) ∧
        (∀ x, (allocate_multiple_blocks a n).2.1.bitmap x =
          (decide (x ∈ ids) || a.bitmap x)) ∧
        (allocate_multiple_blocks a n).2.1.allocated_blocks =
          (a.allocated_blocks + n) % U32 ∧
        (a.allocated_blocks + n < U32 →
          (allocate_multiple_blocks a n).2.1.allocated_blocks =
            a.allocated_blocks + n)) ∧
    ((allocate_multiple_blocks a n).1 = -1 →
      (allocate_multiple_blocks a n).2.1.bitmap = a.bitmap ∧
      (allocate_multiple_blocks a n).2.1.allocated_blocks = a.allocated_blocks ∧
      (allocate_multiple_blocks a n).2.2 = none) ∧
    (∀ b, a.bitmap b = false → free_block a b = a) := by
  have hspec := amb_loop_spec a hrep n a []
    (fun x => by simp) List.nodup_nil (by simp) rfl
    (by simp [Nat.mod_eq_of_lt hrep])
  refine ⟨?_, ?_, fun b hb => free_block_noop hb⟩
  · unfold allocate_multiple_blocks
    split
    · intro hr
      exact absurd hr (by norm_num)
    · split
      · intro hr
        exact absurd hr (by norm_num)
      · rcases hl : amb_loop n a [] with ⟨res, a1⟩
        cases res with
        | none =>
            intro hr
            exact absurd hr (by norm_num)
        | some ids =>
            intro _
            obtain ⟨x1, x2, x3, x4, x5, x6⟩ := hspec.1 ids a1 hl
            have hlen : ids.length = n := by simpa using x5
            refine ⟨ids, rfl, hlen, x1, x2, x3, ?_, ?_⟩
            · rw [x6, hlen]
            · intro hlt
              rw [x6, hlen]
              exact Nat.mod_eq_of_lt hlt
  · unfold allocate_multiple_blocks
    split
    · intro _
      exact ⟨rfl, rfl, rfl⟩
    · split
      · intro _
        exact ⟨rfl, rfl, rfl⟩
      · rcases hl : amb_loop n a [] with ⟨res, a1⟩
        cases res with
        | none =>
            intro _
            obtain ⟨hb, hc, _⟩ := hspec.2 a1 hl
            exact ⟨hb, hc, rfl⟩
        | some ids =>
            intro hr
            exact absurd hr (by norm_num)

/-- C9 witness: a fresh 8-block allocator satisfies the representation
hypothesis, a request for 3 blocks succeeds, and the specification applies. -/
theorem allocate_multiple_blocks_spec_witness :
    (block_allocator_init 8).allocated_blocks < U32 ∧
    (allocate_multiple_blocks (block_allocator_init 8) 3).1 = 0 ∧
    (∃ ids, (allocate_multiple_blocks (block_allocator_init 8) 3).2.2 = some ids ∧
      ids.length = 3 ∧ ids.Nodup ∧
      (∀ b ∈ ids, b < (block_allocator_init 8).total_blocks ∧
        (block_allocator_init 8).bitmap b = false) ∧
      (∀ x, (allocate_multiple_blocks (block_allocator_init 8) 3).2.1.bitmap x =
        (decide (x ∈ ids) || (block_allocator_init 8).bitmap x)) ∧
      (allocate_multiple_blocks (block_allocator_init 8) 3).2.1.allocated_blocks =
        ((block_allocator_init 8).allocated_blocks + 3) % U32 ∧
      ((block_allocator_init 8).allocated_blocks + 3 < U32 →
        (allocate_multiple_blocks (block_allocator_init 8) 3).2.1.allocated_blocks =
          (block_allocator_init 8).allocated_blocks + 3)) :=
  ⟨by decide, by decide,
    (allocate_multiple_blocks_spec (block_allocator_init 8) 3 (by decide)).1 (by decide)⟩


/-- C1: the router does not continue the coordinated read past a DRAM
tombstone.  After a successful LARGE put of [1, 2, 3] under key k (which
leaves the tombstone in the DRAM tree and a matching descriptor in the LO
index), the very next get returns ZIPCACHE_TOMBSTONE with a miss recorded:
it neither consults the LO index (hits_lo stays 0) nor returns the object,
although the claim - and the repositorys own test, which expects
ZIPCACHE_OK with the stored bytes and hits_lo = 1 - requires the read to
continue to the LO tier. -/
theorem tombstone_stops_coordinated_read :
    c1_put.1 = ZIPCACHE_OK ∧
    c1_put.2.dram (zipcache_hash_key [107]) = some TOMBSTONE_MARKER ∧
    object_pointer_is_valid
      (bplus_tree_lo_get c1_put.2.lo (zipcache_hash_key [107])) = true ∧
    (zipcache_get c1_put.2 [107]).res = ZIPCACHE_TOMBSTONE ∧
    (zipcache_get c1_put.2 [107]).res ≠ ZIPCACHE_OK ∧
    (zipcache_get c1_put.2 [107]).cache.stats.misses = 1 ∧
    (zipcache_get c1_put.2 [107]).cache.stats.hits_lo = 0 ∧
    (zipcache_get c1_put.2 [107]).bytesOut = none := by
  refine ⟨by decide, by decide, by decide, by decide, by decide, by decide,
    by decide, by decide⟩

/-- C3: the put-then-get round trip fails on the code.  A successful LARGE
put of [5, 6, 7, 8] is followed by a get that returns ZIPCACHE_TOMBSTONE
and no bytes instead of the stored value; and even for a successful TINY
put, the following get reports size 0 instead of the stored size 1 (the
value pointer itself is returned, *size is hard-coded to 0 in the DRAM hit
path). -/
theorem put_then_get_roundtrip_fails :
    c3_put_large.1 = ZIPCACHE_OK ∧
    (zipcache_get c3_put_large.2 [100]).res = ZIPCACHE_TOMBSTONE ∧
    (zipcache_get c3_put_large.2 [100]).res ≠ ZIPCACHE_OK ∧
    (zipcache_get c3_put_large.2 [100]).bytesOut = none ∧
    c3_put_tiny.1 = ZIPCACHE_OK ∧
    (zipcache_get c3_put_tiny.2 [101]).res = ZIPCACHE_OK ∧
    (zipcache_get c3_put_tiny.2 [101]).ptrOut = some 3000 ∧
    (zipcache_get c3_put_tiny.2 [101]).sizeOut = 0 ∧
    (0 : ℕ) ≠ 1 := by
  refine ⟨by decide, by decide, by decide, by decide, by decide, by decide,
    by decide, by decide, by decide⟩

/-- C5 counterexample: zipcache_delete does not delete from the SSD tier.
For a key present only in the SSD tier, delete answers NOT_FOUND, the
SSD-tier entry survives, and a subsequent get still returns it as a hit -
refuting both that delete removes the key from all three tiers and that
NOT_FOUND is only returned for keys present in no tier. -/
theorem delete_misses_ssd_tier :
    (zipcache_delete c5_state [107]).1 = ZIPCACHE_NOT_FOUND ∧
    (zipcache_delete c5_state [107]).2.ssd (zipcache_hash_key [107]) = some 7 ∧
    (zipcache_get (zipcache_delete c5_state [107]).2 [107]).res = ZIPCACHE_OK ∧
    (zipcache_get (zipcache_delete c5_state [107]).2 [107]).ptrOut = some 7 := by
  refine ⟨by decide, by decide, by decide, by decide⟩

/-- C5 amended: delete removes the key from the DRAM and LO tiers only -
the SSD-tier delete is issued as a put of the reserved value 0, which the
SSD tree rejects, so the SSD tier is never changed - and returns OK
exactly when the DRAM or the LO tier held the key; otherwise it returns
NOT_FOUND.  In every case all other keys, the SSD tier, the storage file
and all statistics (including the miss counter) are left unchanged. -/
theorem delete_spec (c : zipcache) (key : List ℕ) :
    ((zipcache_delete c key).1 = ZIPCACHE_OK ↔
      ((c.dram (zipcache_hash_key key)).isSome ∨
        (c.lo (zipcache_hash_key key)).isSome)) ∧
    ((zipcache_delete c key).1 = ZIPCACHE_NOT_FOUND ↔
      ¬((c.dram (zipcache_hash_key key)).isSome ∨
        (c.lo (zipcache_hash_key key)).isSome)) ∧
    (zipcache_delete c key).2.dram (zipcache_hash_key key) = none ∧
    (zipcache_delete c key).2.lo (zipcache_hash_key key) = none ∧
    (∀ x, x ≠ zipcache_hash_key key →
      (zipcache_delete c key).2.dram x = c.dram x) ∧
    (∀ x, x ≠ zipcache_hash_key key →
      (zipcache_delete c key).2.lo x = c.lo x) ∧
    (zipcache_delete c key).2.ssd = c.ssd ∧
    (zipcache_delete c key).2.stats = c.stats ∧
    (zipcache_delete c key).2.file = c.file ∧
    (zipcache_delete c key).2.ssd_offset = c.ssd_offset ∧
    (zipcache_delete c key).2.tiny_threshold = c.tiny_threshold ∧
    (zipcache_delete c key).2.medium_threshold = c.medium_threshold := by
  unfold zipcache_delete bplus_tree_put bplus_tree_lo_delete
  rcases hd : c.dram (zipcache_hash_key key) with _ | vd <;>
    rcases hl : c.lo (zipcache_hash_key key) with _ | pl <;>
      simp [hd, hl, ZIPCACHE_OK, ZIPCACHE_NOT_FOUND]
  · intro x hx hx2
    exact absurd hx2 hx
  · intro x hx hx2
    exact absurd hx2 hx
  · exact ⟨fun x hx hx2 => absurd hx2 hx, fun x hx hx2 => absurd hx2 hx⟩


/-- C2 counterexample: a large-object checksum mismatch is not fatal to the
GET.  In c2_state the LO index holds a descriptor whose on-file bytes are
corrupted; zipcache_read_large_object itself answers IO_ERROR, yet the GET
returns NOT_FOUND (the router fell through to the empty SSD tier), and
with an SSD-tier entry present the same corrupted GET even returns that
entry as an SSD hit - so the router does continue to the SSD tier on
corruption and the caller never sees IO_ERROR. -/
theorem checksum_mismatch_falls_through :
    (zipcache_read_large_object c2_state c2_desc).1 = ZIPCACHE_IO_ERROR ∧
    (zipcache_get c2_state [107]).res = ZIPCACHE_NOT_FOUND ∧
    (zipcache_get c2_state [107]).res ≠ ZIPCACHE_IO_ERROR ∧
    (zipcache_get c2_state_ssd [107]).res = ZIPCACHE_OK ∧
    (zipcache_get c2_state_ssd [107]).ptrOut = some 42 := by
  refine ⟨by decide, by decide, by decide, by decide, by decide⟩

/-- C2 amended: when the DRAM lookup misses and the LO index yields a valid
descriptor whose stored checksum disagrees with the checksum of the bytes
read at [lba, lba + size), zipcache_read_large_object fails with IO_ERROR
and returns no buffer, but the coordinated read continues to the SSD tier:
the GET returns OK on an SSD hit and NOT_FOUND otherwise, and in either
case no byte buffer - in particular never the corrupt one - reaches the
caller. -/
theorem checksum_mismatch_continues_to_ssd (c : zipcache) (key : List ℕ)
    (d : object_pointer)
    (hklen : key.length ≤ ZIPCACHE_MAX_KEY_SIZE)
    (hdram : bplus_tree_get c.dram (zipcache_hash_key key) ≤ 0)
    (hlo : c.lo (zipcache_hash_key key) = some d)
    (hvalid : object_pointer_is_valid d = true)
    (hmismatch : zipcache_checksum (readBytes c.file d.lba d.size) ≠ d.checksum) :
    (zipcache_read_large_object c d).1 = ZIPCACHE_IO_ERROR ∧
    (zipcache_read_large_object c d).2 = none ∧
    (zipcache_get c key).res =
      (if 0 < ssd_map_get c.ssd (zipcache_hash_key key) then ZIPCACHE_OK
        else ZIPCACHE_NOT_FOUND) ∧
    (zipcache_get c key).bytesOut = none := by
  have hread : zipcache_read_large_object c d = (ZIPCACHE_IO_ERROR, none) := by
    unfold zipcache_read_large_object
    rw [if_neg hmismatch]
  have hget : zipcache_get c key = zipcache_coordinated_read c key := by
    unfold zipcache_get
    rw [if_neg (by omega)]
  refine ⟨by rw [hread], by rw [hread], ?_, ?_⟩ <;>
  · rw [hget]
    unfold zipcache_coordinated_read
    rw [if_neg (by omega)]
    simp only [bplus_tree_lo_get, hlo, hvalid, if_true, hread]
    split <;> simp

/-- C2 witness: the corrupted concrete state c2_state satisfies every
hypothesis of the amended theorem, whose conclusion then applies. -/
theorem checksum_mismatch_continues_to_ssd_witness :
    (([107] : List ℕ).length ≤ ZIPCACHE_MAX_KEY_SIZE ∧
      bplus_tree_get c2_state.dram (zipcache_hash_key [107]) ≤ 0 ∧
      c2_state.lo (zipcache_hash_key [107]) = some c2_desc ∧
      object_pointer_is_valid c2_desc = true ∧
      zipcache_checksum (readBytes c2_state.file c2_desc.lba c2_desc.size) ≠
        c2_desc.checksum) ∧
    ((zipcache_read_large_object c2_state c2_desc).1 = ZIPCACHE_IO_ERROR ∧
      (zipcache_read_large_object c2_state c2_desc).2 = none ∧
      (zipcache_get c2_state [107]).res =
        (if 0 < ssd_map_get c2_state.ssd (zipcache_hash_key [107]) then ZIPCACHE_OK
          else ZIPCACHE_NOT_FOUND) ∧
      (zipcache_get c2_state [107]).bytesOut = none) :=
  ⟨⟨by decide, by decide, by decide, by decide, by decide⟩,
    checksum_mismatch_continues_to_ssd c2_state [107] c2_desc
      (by decide) (by decide) (by decide) (by decide) (by decide)⟩


/-- C4 helper: the 4 KiB round-up dominates the size. -/
lemma le_align (n : ℕ) : n ≤ ((n + 4095) / 4096) * 4096 := by
  have h1 := Nat.div_add_mod (n + 4095) 4096
  have h2 : (n + 4095) % 4096 < 4096 := Nat.mod_lt _ (by norm_num)
  omega

/-- C4: after every put classified LARGE (which then returns OK), the DRAM
tree maps the hashed key to the tombstone sentinel, the LO index maps it
to the descriptor (lba = the old append offset, size, checksum of the
payload), the storage file holds the payload at [lba, lba + size) followed
by zeros up to the next 4 KiB multiple, the descriptor checksum equals the
checksum of the file bytes at [lba, lba + size), and the append offset
advances by the aligned size. -/
theorem large_put_postconditions (c : zipcache) (key value : List ℕ) (ptr : ℤ)
    (hklen : key.length ≤ ZIPCACHE_MAX_KEY_SIZE)
    (hptr : ptr ≠ 0)
    (hcls : zipcache_classify_object c value.length = .large)
    (hsize : value.length < U32) :
    (zipcache_put c key value ptr).1 = ZIPCACHE_OK ∧
    (zipcache_put c key value ptr).2.dram (zipcache_hash_key key) =
      some TOMBSTONE_MARKER ∧
    (zipcache_put c key value ptr).2.lo (zipcache_hash_key key) =
      some ⟨c.ssd_offset, value.length, zipcache_checksum value⟩ ∧
    (∀ j, j < value.length →
      (zipcache_put c key value ptr).2.file (c.ssd_offset + j) = value.getD j 0) ∧
    (∀ j, value.length ≤ j → j < ((value.length + 4095) / 4096) * 4096 →
      (zipcache_put c key value ptr).2.file (c.ssd_offset + j) = 0) ∧
    readBytes (zipcache_put c key value ptr).2.file c.ssd_offset value.length =
      value ∧
    zipcache_checksum
      (readBytes (zipcache_put c key value ptr).2.file c.ssd_offset value.length) =
      zipcache_checksum value ∧
    (zipcache_put c key value ptr).2.ssd_offset =
      c.ssd_offset + ((value.length + 4095) / 4096) * 4096 := by
  have htiny : ¬ value.length ≤ c.tiny_threshold := by
    intro hle
    unfold zipcache_classify_object at hcls
    rw [if_pos hle] at hcls
    exact ObjType.noConfusion hcls
  have hmed : ¬ value.length ≤ c.medium_threshold := by
    intro hle
    unfold zipcache_classify_object at hcls
    rw [if_neg htiny, if_pos hle] at hcls
    exact ObjType.noConfusion hcls
  have hlen0 : value.length ≠ 0 := by omega
  have hvalid : object_pointer_is_valid
      ⟨c.ssd_offset, value.length % U32, zipcache_checksum value⟩ = true := by
    unfold object_pointer_is_valid
    simp [Nat.mod_eq_of_lt hsize, hlen0]
  have heq : zipcache_put c key value ptr =
      (ZIPCACHE_OK,
        { c with
          dram := fun x =>
            if x = zipcache_hash_key key then some TOMBSTONE_MARKER else c.dram x
          lo := fun x =>
            if x = zipcache_hash_key key then
              some ⟨c.ssd_offset, value.length % U32, zipcache_checksum value⟩
            else c.lo x
          file := fun x =>
            if c.ssd_offset ≤ x ∧
                x < c.ssd_offset + ((value.length + 4095) / 4096) * 4096 then
              if x - c.ssd_offset < value.length then
                value.getD (x - c.ssd_offset) 0
              else 0
            else c.file x
          ssd_offset := c.ssd_offset + ((value.length + 4095) / 4096) * 4096
          stats := { c.stats with
            puts_large := c.stats.puts_large + 1
            tombstones := c.stats.tombstones + 1 } }) := by
    unfold zipcache_put
    rw [if_neg (by push_neg; exact ⟨hlen0, hptr⟩), if_neg (by omega), hcls]
    unfold zipcache_route_put zipcache_write_large_object bplus_tree_lo_put
      bplus_tree_put
    simp only [hvalid, if_true]
    norm_num [TOMBSTONE_MARKER]
  have halign := le_align value.length
  have hpay : ∀ j, j < value.length →
      (zipcache_put c key value ptr).2.file (c.ssd_offset + j) = value.getD j 0 := by
    intro j hj
    rw [heq]
    simp only
    rw [if_pos ⟨Nat.le_add_right _ _, by omega⟩, Nat.add_sub_cancel_left, if_pos hj]
  have hpad : ∀ j, value.length ≤ j → j < ((value.length + 4095) / 4096) * 4096 →
      (zipcache_put c key value ptr).2.file (c.ssd_offset + j) = 0 := by
    intro j hj1 hj2
    rw [heq]
    simp only
    rw [if_pos ⟨Nat.le_add_right _ _, by omega⟩, Nat.add_sub_cancel_left,
      if_neg (by omega)]
  have hrb : readBytes (zipcache_put c key value ptr).2.file c.ssd_offset
      value.length = value := by
    apply List.ext_getElem
    · simp [readBytes]
    · intro i h1 h2
      simp only [readBytes, List.getElem_map, List.getElem_range]
      rw [hpay i h2]
      exact List.getD_eq_getElem value 0 h2
  exact ⟨by rw [heq], by rw [heq]; simp,
    by rw [heq]; simp [Nat.mod_eq_of_lt hsize], hpay, hpad, hrb, by rw [hrb],
    by rw [heq]⟩

/-- C4 witness: the concrete LARGE run c1_put (thresholds 1 and 2, 3-byte
value) satisfies the hypotheses, and the postconditions apply. -/
theorem large_put_postconditions_witness :
    (([107] : List ℕ).length ≤ ZIPCACHE_MAX_KEY_SIZE ∧ (1000 : ℤ) ≠ 0 ∧
      zipcache_classify_object (zc_init 1 2) ([1, 2, 3] : List ℕ).length = .large ∧
      ([1, 2, 3] : List ℕ).length < U32) ∧
    (c1_put.1 = ZIPCACHE_OK ∧
      c1_put.2.dram (zipcache_hash_key [107]) = some TOMBSTONE_MARKER ∧
      c1_put.2.lo (zipcache_hash_key [107]) =
        some ⟨(zc_init 1 2).ssd_offset, ([1, 2, 3] : List ℕ).length,
          zipcache_checksum [1, 2, 3]⟩) :=
  ⟨⟨by decide, by decide, by decide, by decide⟩, by
    have h := large_put_postconditions (zc_init 1 2) [107] [1, 2, 3] 1000
      (by decide) (by decide) (by decide) (by decide)
    exact ⟨h.1, h.2.1, h.2.2.1⟩⟩


/-- Inserting a fresh key grows the page by one entry. -/
lemma sp_insert_sorted_length (k v : ℤ) :
    ∀ (pg : SubPage), (∀ e ∈ pg, e.1 ≠ k) →
      (sp_insert_sorted k v pg).length = pg.length + 1
  | [], _ => rfl
  | (k0, v0) :: rest, hfresh => by
      have hk0 : k0 ≠ k := hfresh (k0, v0) (List.mem_cons_self _ _)
      unfold sp_insert_sorted
      rw [if_neg (fun h => hk0 h.symm)]
      split
      · simp
      · simp only [List.length_cons]
        rw [sp_insert_sorted_length k v rest
          (fun e he => hfresh e (List.mem_cons_of_mem _ he))]

/-- Unfolding sub_page_search over a cons cell. -/
lemma sub_page_search_cons (e : ℤ × ℤ) (l : List (ℤ × ℤ)) (k' : ℤ) :
    sub_page_search (e :: l) k' = if e.1 = k' then e.2 else sub_page_search l k' := by
  unfold sub_page_search
  by_cases h : e.1 = k'
  · rw [List.find?_cons_of_pos _ (by simpa using h), if_pos h]
  · rw [List.find?_cons_of_neg _ (by simpa using h), if_neg h]

/-- Searching after inserting a fresh key: the new key finds the new
value, every other key finds what it found before. -/
lemma sub_page_search_insert (k v k' : ℤ) :
    ∀ (pg : SubPage), (∀ e ∈ pg, e.1 ≠ k) →
      sub_page_search (sp_insert_sorted k v pg) k' =
        if k' = k then v else sub_page_search pg k'
  | [], _ => by
      show sub_page_search [(k, v)] k' = _
      rw [sub_page_search_cons]
      by_cases h : k' = k
      · rw [if_pos h.symm, if_pos h]
      · rw [if_neg (fun hh : k = k' => h hh.symm), if_neg h]
  | (k0, v0) :: rest, hfresh => by
      have hk0 : k0 ≠ k := hfresh (k0, v0) (List.mem_cons_self _ _)
      have hrest : ∀ e ∈ rest, e.1 ≠ k :=
        fun e he => hfresh e (List.mem_cons_of_mem _ he)
      unfold sp_insert_sorted
      rw [if_neg (fun h => hk0 h.symm)]
      split
      · rw [sub_page_search_cons]
        by_cases h : k' = k
        · rw [if_pos h.symm, if_pos h]
        · rw [if_neg (fun hh : k = k' => h hh.symm), if_neg h]
      · rw [sub_page_search_cons]
        by_cases h0 : k0 = k'
        · have hknek : ¬ k' = k := fun hh => hk0 (h0.trans hh)
          rw [if_pos h0, if_neg hknek, sub_page_search_cons, if_pos h0]
        · rw [if_neg h0]
          have hrec := sub_page_search_insert k v k' rest hrest
          rw [hrec]
          by_cases h : k' = k
          · rw [if_pos h, if_pos h]
          · rw [if_neg h, if_neg h, sub_page_search_cons, if_neg h0]

/-- Membership in an inserted page comes from the new pair or the old page. -/
lemma mem_sp_insert (k v : ℤ) :
    ∀ (pg : SubPage) (b : ℤ × ℤ),
      b ∈ sp_insert_sorted k v pg → b = (k, v) ∨ b ∈ pg
  | [], b, hb => by simpa [sp_insert_sorted] using hb
  | (k0, v0) :: rest, b, hb => by
      unfold sp_insert_sorted at hb
      split at hb
      · rcases List.mem_cons.mp hb with h | h
        · exact Or.inl h
        · exact Or.inr (List.mem_cons_of_mem _ h)
      · split at hb
        · rcases List.mem_cons.mp hb with h | h
          · exact Or.inl h
          · exact Or.inr h
        · rcases List.mem_cons.mp hb with h | h
          · exact Or.inr (h ▸ List.mem_cons_self _ _)
          · rcases mem_sp_insert k v rest b h with h2 | h2
            · exact Or.inl h2
            · exact Or.inr (List.mem_cons_of_mem _ h2)

/-- Folding fresh inserts over a page grows it by the number of pairs. -/
lemma build_fold_length :
    ∀ (l : List (ℤ × ℤ)) (pg : SubPage),
      l.Pairwise (fun a b => a.1 ≠ b.1) →
      (∀ a ∈ l, ∀ b ∈ pg, b.1 ≠ a.1) →
      (l.foldl (fun pg e => sp_insert_sorted e.1 e.2 pg) pg).length =
        pg.length + l.length
  | [], pg, _, _ => rfl
  | x :: l', pg, hdist, hfresh => by
      have hx : ∀ b ∈ pg, b.1 ≠ x.1 :=
        fun b hb => hfresh x (List.mem_cons_self _ _) b hb
      have hstep : (sp_insert_sorted x.1 x.2 pg).length = pg.length + 1 :=
        sp_insert_sorted_length x.1 x.2 pg hx
      have hfresh' : ∀ a ∈ l', ∀ b ∈ sp_insert_sorted x.1 x.2 pg, b.1 ≠ a.1 := by
        intro a ha b hb
        rcases mem_sp_insert x.1 x.2 pg b hb with h | h
        · rw [h]
          exact ((List.pairwise_cons.mp hdist).1 a ha)
        · exact hfresh a (List.mem_cons_of_mem _ ha) b h
      have hrec := build_fold_length l' (sp_insert_sorted x.1 x.2 pg)
        (List.pairwise_cons.mp hdist).2 hfresh'
      simp only [List.foldl_cons, List.length_cons] at hrec ⊢
      rw [hrec, hstep]
      omega

/-- Searching the page built by folding fresh inserts: a key found among
the folded pairs returns that pairs value, otherwise the search falls
back to the initial page. -/
lemma build_fold_search :
    ∀ (l : List (ℤ × ℤ)) (pg : SubPage) (k' : ℤ),
      l.Pairwise (fun a b => a.1 ≠ b.1) →
      (∀ a ∈ l, ∀ b ∈ pg, b.1 ≠ a.1) →
      sub_page_search (l.foldl (fun pg e => sp_insert_sorted e.1 e.2 pg) pg) k' =
        (match l.find? (fun e => e.1 = k') with
          | some e => e.2
          | none => sub_page_search pg k')
  | [], pg, k', _, _ => rfl
  | x :: l', pg, k', hdist, hfresh => by
      have hx : ∀ b ∈ pg, b.1 ≠ x.1 :=
        fun b hb => hfresh x (List.mem_cons_self _ _) b hb
      have hfresh' : ∀ a ∈ l', ∀ b ∈ sp_insert_sorted x.1 x.2 pg, b.1 ≠ a.1 := by
        intro a ha b hb
        rcases mem_sp_insert x.1 x.2 pg b hb with h | h
        · rw [h]
          exact ((List.pairwise_cons.mp hdist).1 a ha)
        · exact hfresh a (List.mem_cons_of_mem _ ha) b h
      have hrec := build_fold_search l' (sp_insert_sorted x.1 x.2 pg) k'
        (List.pairwise_cons.mp hdist).2 hfresh'
      simp only [List.foldl_cons] at hrec ⊢
      rw [hrec]
      by_cases hk : x.1 = k'
      · have hnone : l'.find? (fun e => decide (e.1 = k')) = none := by
          rw [List.find?_eq_none]
          intro a ha
          simp only [decide_eq_true_eq]
          intro haeq
          exact ((List.pairwise_cons.mp hdist).1 a ha) (hk.trans haeq.symm)
        rw [List.find?_cons_of_pos _ (by simpa using hk), hnone,
          sub_page_search_insert x.1 x.2 k' pg hx, if_pos hk.symm]
      · rw [List.find?_cons_of_neg _ (by simpa using hk)]
        cases hfind : l'.find? (fun e => decide (e.1 = k')) with
        | some e => rfl
        | none =>
            rw [sub_page_search_insert x.1 x.2 k' pg hx,
              if_neg (fun h => hk h.symm)]

/-- In a list with pairwise distinct keys, find? by the key of a member
returns exactly that member. -/
lemma find_mem_distinct :
    ∀ (l : List (ℤ × ℤ)), l.Pairwise (fun a b => a.1 ≠ b.1) →
      ∀ e ∈ l, l.find? (fun x => x.1 = e.1) = some e
  | [], _, e, he => absurd he (List.not_mem_nil e)
  | x :: l', hdist, e, he => by
      rcases List.mem_cons.mp he with h | h
      · subst h
        exact List.find?_cons_of_pos _ (by simp)
      · have hne : x.1 ≠ e.1 := (List.pairwise_cons.mp hdist).1 e h
        rw [List.find?_cons_of_neg _ (by simpa using hne)]
        exact find_mem_distinct l' (List.pairwise_cons.mp hdist).2 e h


/-- The insertion step of the C insertion sort permutes. -/
lemma c_ordered_insert_perm (p : ℤ × ℤ) :
    ∀ (l : List (ℤ × ℤ)), (c_ordered_insert p l).Perm (p :: l)
  | [] => List.Perm.refl _
  | q :: l' => by
      unfold c_ordered_insert
      split
      · exact ((c_ordered_insert_perm p l').cons q).trans (List.Perm.swap p q l')
      · exact List.Perm.refl _

/-- The insertion-sort fold permutes: the result is a permutation of the
accumulator followed by the input. -/
lemma csort_fold_perm :
    ∀ (l acc : List (ℤ × ℤ)),
      (l.foldl (fun acc p => c_ordered_insert p acc) acc).Perm (acc ++ l)
  | [], acc => by simp
  | p :: l', acc => by
      simp only [List.foldl_cons]
      refine (csort_fold_perm l' (c_ordered_insert p acc)).trans ?_
      refine (((c_ordered_insert_perm p acc).append_right l')).trans ?_
      exact List.perm_middle.symm

/-- consolidate_and_sort permutes the consolidated pairs. -/
lemma consolidate_and_sort_perm (bufs : Fin 16 → Option SubPage) :
    (consolidate_and_sort bufs).Perm (consolidate bufs) := by
  simpa using csort_fold_perm (consolidate bufs) []

/-- The insertion step preserves sortedness by key. -/
lemma c_ordered_insert_sorted (p : ℤ × ℤ) :
    ∀ (l : List (ℤ × ℤ)), l.Pairwise (fun a b => a.1 ≤ b.1) →
      (c_ordered_insert p l).Pairwise (fun a b => a.1 ≤ b.1)
  | [], _ => List.pairwise_cons.mpr ⟨by simp, List.Pairwise.nil⟩
  | q :: l', hs => by
      obtain ⟨hq, hl'⟩ := List.pairwise_cons.mp hs
      unfold c_ordered_insert
      split
      next hle =>
        refine List.pairwise_cons.mpr ⟨?_, c_ordered_insert_sorted p l' hl'⟩
        intro b hb
        rcases List.mem_cons.mp ((c_ordered_insert_perm p l').mem_iff.mp hb) with h | h
        · rw [h]
          exact hle
        · exact hq b h
      next hgt =>
        have hpq : p.1 ≤ q.1 := le_of_not_le hgt
        refine List.pairwise_cons.mpr ⟨?_, hs⟩
        intro b hb
        rcases List.mem_cons.mp hb with h | h
        · rw [h]
          exact hpq
        · exact hpq.trans (hq b h)

/-- The insertion-sort fold keeps the accumulator sorted. -/
lemma csort_fold_sorted :
    ∀ (l acc : List (ℤ × ℤ)), acc.Pairwise (fun a b => a.1 ≤ b.1) →
      (l.foldl (fun acc p => c_ordered_insert p acc) acc).Pairwise
        (fun a b => a.1 ≤ b.1)
  | [], _, hacc => hacc
  | p :: l', acc, hacc => by
      simp only [List.foldl_cons]
      exact csort_fold_sorted l' (c_ordered_insert p acc)
        (c_ordered_insert_sorted p acc hacc)

/-- consolidate_and_sort sorts by key. -/
lemma consolidate_and_sort_sorted (bufs : Fin 16 → Option SubPage) :
    (consolidate_and_sort bufs).Pairwise (fun a b => a.1 ≤ b.1) :=
  csort_fold_sorted (consolidate bufs) [] List.Pairwise.nil

/-- A member of a getD buffer comes from a present buffer. -/
lemma mem_getD_buf {bufs : Fin 16 → Option SubPage} {i : Fin 16} {e : ℤ × ℤ}
    (h : e ∈ (bufs i).getD []) : ∃ p, bufs i = some p ∧ e ∈ p := by
  cases hb : bufs i with
  | none => rw [hb] at h; exact absurd h (List.not_mem_nil e)
  | some p => rw [hb] at h; exact ⟨p, rfl, h⟩

/-- Under the hash-residence hypothesis, the consolidated pairs have
pairwise distinct keys. -/
lemma consolidate_pairwise_ne (bufs : Fin 16 → Option SubPage)
    (hres : ∀ i : Fin 16, ∀ e ∈ (bufs i).getD [], hashIdx e.1 = i)
    (hkeys : ∀ i : Fin 16,
      ((bufs i).getD []).Pairwise (fun a b => a.1 ≠ b.1)) :
    (consolidate bufs).Pairwise (fun a b => a.1 ≠ b.1) := by
  unfold consolidate
  rw [List.pairwise_flatten]
  constructor
  · intro l' hl'
    rcases List.mem_map.mp hl' with ⟨i, _, rfl⟩
    exact hkeys i
  · rw [List.pairwise_map]
    have hfr : (List.finRange 16).Pairwise (· ≠ ·) := List.nodup_finRange 16
    refine hfr.imp_of_mem ?_
    intro i j _ _ hij x hx y hy
    intro hxy
    apply hij
    rw [← hres i x hx, ← hres j y hy, hxy]

/-- A consolidated pair lives in the buffer of its hash slot, which is
backed by a valid block of the super-leaf. -/
lemma consolidate_mem_buf {dm : disk_manager} {sl : bplus_super_leaf} {e : ℤ × ℤ}
    (hres : ∀ i : Fin 16, ∀ x ∈ (split_read_buffers dm sl i).getD [],
      hashIdx x.1 = i)
    (he : e ∈ consolidate (split_read_buffers dm sl)) :
    (∃ p, split_read_buffers dm sl (hashIdx e.1) = some p ∧ e ∈ p) ∧
      (sl.sub_page_blocks (hashIdx e.1)).isSome := by
  unfold consolidate at he
  rcases List.mem_flatten.mp he with ⟨l', hl', hel⟩
  rcases List.mem_map.mp hl' with ⟨i, _, rfl⟩
  rcases mem_getD_buf hel with ⟨p, hp, hep⟩
  have hi : hashIdx e.1 = i := hres i e (by rw [hp]; exact hep)
  subst hi
  refine ⟨⟨p, hp, hep⟩, ?_⟩
  unfold split_read_buffers at hp
  cases hblk : sl.sub_page_blocks (hashIdx e.1) with
  | none => rw [hblk] at hp; exact absurd hp (by simp)
  | some b => simp

/-- Counting pairs that all hash to slot i over the consolidated buffers
is bounded by the length of buffer i. -/
lemma countP_consolidate_le (bufs : Fin 16 → Option SubPage)
    (hres : ∀ i : Fin 16, ∀ e ∈ (bufs i).getD [], hashIdx e.1 = i)
    (q : (ℤ × ℤ) → Bool) (i : Fin 16)
    (hq : ∀ e, q e = true → hashIdx e.1 = i) :
    (consolidate bufs).countP q ≤ ((bufs i).getD []).length := by
  have hgen : ∀ (l : List (Fin 16)), l.Nodup →
      ((l.map (fun j => (bufs j).getD [])).flatten).countP q ≤
        (if i ∈ l then ((bufs i).getD []).length else 0) := by
    intro l
    induction l with
    | nil => simp
    | cons j l' ih =>
        intro hnd
        simp only [List.map_cons, List.flatten_cons, List.countP_append]
        by_cases hji : j = i
        · subst hji
          have hnotmem : j ∉ l' := (List.nodup_cons.mp hnd).1
          have h2 := ih (List.nodup_cons.mp hnd).2
          rw [if_neg hnotmem] at h2
          rw [if_pos (List.mem_cons_self _ _)]
          have h1 : ((bufs j).getD []).countP q ≤ ((bufs j).getD []).length :=
            List.countP_le_length q
          omega
        · have h1 : ((bufs j).getD []).countP q = 0 := by
            rw [List.countP_eq_zero]
            intro e he hqe
            exact hji ((hres j e he).symm.trans (hq e hqe))
          have h2 := ih (List.nodup_cons.mp hnd).2
          by_cases hil : i ∈ l'
          · rw [if_pos (List.mem_cons_of_mem _ hil)]
            rw [if_pos hil] at h2
            omega
          · rw [if_neg (show i ∉ j :: l' from fun hc =>
              (List.mem_cons.mp hc).elim (fun hh => hji hh.symm) hil)]
            rw [if_neg hil] at h2
            omega
  have := hgen (List.finRange 16) (List.nodup_finRange 16)
  rw [if_pos (List.mem_finRange i)] at this
  exact this


/-- The cached page an Option represents, as pageOpt yields it. -/
lemma pageOpt_getD (median : ℤ) (s : Bool) (i : Fin 16) (l : List (ℤ × ℤ)) :
    (pageOpt median s i l).getD [] =
      build_page (l.filter (redist_class median s i)) := by
  unfold pageOpt
  split
  next hemp =>
    rw [List.isEmpty_iff.mp hemp]
    rfl
  next => rfl

/-- A pair satisfies its own redistribution class. -/
lemma redist_class_self (median : ℤ) (e : ℤ × ℤ) :
    redist_class median (decide (e.1 < median)) (hashIdx e.1) e = true := by
  unfold redist_class
  simp

/-- A pair fails the class of any other slot of its own side. -/
lemma redist_class_other_slot (median : ℤ) (s : Bool) (i : Fin 16) (e : ℤ × ℤ)
    (h : hashIdx e.1 ≠ i) : redist_class median s i e = false := by
  unfold redist_class
  simp [h]

/-- A pair fails every class of the other side. -/
lemma redist_class_other_side (median : ℤ) (s : Bool) (i : Fin 16) (e : ℤ × ℤ)
    (h : decide (e.1 < median) ≠ s) : redist_class median s i e = false := by
  unfold redist_class
  simp [h]

/-- Appending a pair to the built page is one more insert. -/
lemma build_page_snoc (l : List (ℤ × ℤ)) (e : ℤ × ℤ) :
    build_page (l ++ [e]) = sp_insert_sorted e.1 e.2 (build_page l) := by
  unfold build_page
  rw [List.foldl_append]
  rfl

/-- What redist_insert does when the target page is below capacity. -/
lemma redist_insert_eq (t : bplus_super_leaf) (e : ℤ × ℤ)
    (hnotfull : ((t.cached_sub_pages (hashIdx e.1)).getD []).length <
      ENTRIES_PER_SUB_PAGE) :
    redist_insert t e =
      { t with
        cached_sub_pages := Function.update t.cached_sub_pages (hashIdx e.1)
          (some (sp_insert_sorted e.1 e.2
            ((t.cached_sub_pages (hashIdx e.1)).getD [])))
        dirty_flags := Function.update t.dirty_flags (hashIdx e.1) true
        total_entries := t.total_entries + 1 } := by
  unfold redist_insert
  cases hc : t.cached_sub_pages (hashIdx e.1) with
  | some p =>
      rw [hc] at hnotfull
      rw [Option.getD_some] at hnotfull
      simp only [hc, Option.getD_some, Option.isNone_some, Bool.false_eq_true,
        if_false]
      rw [show sub_page_insert p e.1 e.2 = some (sp_insert_sorted e.1 e.2 p) by
        unfold sub_page_insert sub_page_is_full
        rw [if_neg (by simp only [decide_eq_true_eq]; omega)]]
  | none =>
      rw [hc] at hnotfull
      simp only [hc, Option.getD_none, Option.isNone_none, if_true]
      rw [show sub_page_insert [] e.1 e.2 = some (sp_insert_sorted e.1 e.2 []) by
        unfold sub_page_insert sub_page_is_full ENTRIES_PER_SUB_PAGE
        rw [if_neg (by simp)]]
      simp [Function.update_idem]


/-- Appending a pair of the other side changes no page of this side. -/
lemma pageOpt_snoc_other (median : ℤ) (s' : Bool) (i : Fin 16)
    (done : List (ℤ × ℤ)) (e : ℤ × ℤ) (h : redist_class median s' i e = false) :
    pageOpt median s' i (done ++ [e]) = pageOpt median s' i done := by
  unfold pageOpt
  have hnil : List.filter (redist_class median s' i) [e] = [] := by
    rw [List.filter_eq_nil_iff]
    intro a ha
    rw [List.mem_singleton.mp ha, h]
    simp
  rw [List.filter_append, hnil, List.append_nil]

/-- Appending a pair of the other side changes no side count. -/
lemma side_filter_snoc_other (median : ℤ) (s' : Bool)
    (done : List (ℤ × ℤ)) (e : ℤ × ℤ) (h : decide (e.1 < median) ≠ s') :
    (done ++ [e]).filter (side_pred median s') =
      done.filter (side_pred median s') := by
  have hnil : List.filter (side_pred median s') [e] = [] := by
    rw [List.filter_eq_nil_iff]
    intro a ha
    rw [List.mem_singleton.mp ha]
    unfold side_pred
    simp [h]
  rw [List.filter_append, hnil, List.append_nil]

/-- One redistribution insert on the receiving side: the hash slot of the
pair gains the pair, every other slot and the block array are unchanged,
and the entry counter tracks the side filter. -/
lemma redist_side_step (median : ℤ) (pairs done todo' : List (ℤ × ℤ))
    (e : ℤ × ℤ)
    (hpairs : pairs = done ++ e :: todo')
    (hdist : pairs.Pairwise (fun a b => a.1 ≠ b.1))
    (hbound : (pairs.filter
      (redist_class median (decide (e.1 < median)) (hashIdx e.1))).length ≤
      ENTRIES_PER_SUB_PAGE)
    (T : bplus_super_leaf)
    (hT : ∀ i, T.cached_sub_pages i =
      pageOpt median (decide (e.1 < median)) i done)
    (htot : T.total_entries =
      ((done.filter (side_pred median (decide (e.1 < median)))).length : ℤ)) :
    (∀ i, (redist_insert T e).cached_sub_pages i =
      pageOpt median (decide (e.1 < median)) i (done ++ [e])) ∧
    (redist_insert T e).total_entries =
      (((done ++ [e]).filter
        (side_pred median (decide (e.1 < median)))).length : ℤ) ∧
    (redist_insert T e).sub_page_blocks = T.sub_page_blocks := by
  set s := decide (e.1 < median) with hs
  have hfresh : ∀ a ∈ done, a.1 ≠ e.1 := by
    intro a ha
    exact (List.pairwise_append.mp (hpairs ▸ hdist)).2.2 a ha e
      (List.mem_cons_self _ _)
  have hdone_pw : done.Pairwise (fun a b => a.1 ≠ b.1) :=
    (List.pairwise_append.mp (hpairs ▸ hdist)).1
  have hcl_pw : (done.filter (redist_class median s (hashIdx e.1))).Pairwise
      (fun a b => a.1 ≠ b.1) :=
    List.Pairwise.sublist (List.filter_sublist done) hdone_pw
  have hbuild_len : (build_page (done.filter
      (redist_class median s (hashIdx e.1)))).length =
      (done.filter (redist_class median s (hashIdx e.1))).length := by
    unfold build_page
    rw [build_fold_length _ [] hcl_pw
      (by intro a _ b hb; exact absurd hb (List.not_mem_nil b))]
    simp
  have hsat : redist_class median s (hashIdx e.1) e = true := by
    rw [hs]
    exact redist_class_self median e
  have hfilter_pairs : pairs.filter (redist_class median s (hashIdx e.1)) =
      done.filter (redist_class median s (hashIdx e.1)) ++
        e :: todo'.filter (redist_class median s (hashIdx e.1)) := by
    rw [hpairs, List.filter_append, List.filter_cons, if_pos hsat]
  have hlen_lt : (done.filter (redist_class median s (hashIdx e.1))).length <
      ENTRIES_PER_SUB_PAGE := by
    rw [hfilter_pairs] at hbound
    simp only [List.length_append, List.length_cons] at hbound
    omega
  have hnotfull : ((T.cached_sub_pages (hashIdx e.1)).getD []).length <
      ENTRIES_PER_SUB_PAGE := by
    rw [hT (hashIdx e.1), pageOpt_getD, hbuild_len]
    exact hlen_lt
  have heq := redist_insert_eq T e hnotfull
  have hfilter_snoc : (done ++ [e]).filter (redist_class median s (hashIdx e.1)) =
      done.filter (redist_class median s (hashIdx e.1)) ++ [e] := by
    rw [List.filter_append, List.filter_cons, if_pos hsat]
    rfl
  refine ⟨?_, ?_, ?_⟩
  · intro i
    rw [heq]
    by_cases hi : i = hashIdx e.1
    · subst hi
      simp only [Function.update_same]
      rw [hT (hashIdx e.1), pageOpt_getD]
      unfold pageOpt
      rw [hfilter_snoc]
      rw [if_neg (by simp)]
      rw [build_page_snoc]
    · simp only [Function.update_noteq hi]
      rw [hT i]
      rw [pageOpt_snoc_other median s i done e
        (redist_class_other_slot median s i e (fun h => hi h.symm))]
  · rw [heq]
    simp only
    rw [htot]
    have : (done ++ [e]).filter (side_pred median s) =
        done.filter (side_pred median s) ++ [e] := by
      rw [List.filter_append, List.filter_cons,
        if_pos (by rw [hs]; unfold side_pred; simp)]
      rfl
    rw [this]
    simp only [List.length_append, List.length_cons, List.length_nil]
    push_cast
    ring
  · rw [heq]

/-- The invariant of the redistribution loop: starting from cleared leaves
and folding the pairs, each side ends with exactly the pages of its
classes and the entry count of its side filter, blocks untouched. -/
lemma redist_fold_inv (median : ℤ) (pairs : List (ℤ × ℤ))
    (hdist : pairs.Pairwise (fun a b => a.1 ≠ b.1))
    (hbound : ∀ (s : Bool) (i : Fin 16),
      (pairs.filter (redist_class median s i)).length ≤ ENTRIES_PER_SUB_PAGE) :
    ∀ (todo done : List (ℤ × ℤ)) (L R : bplus_super_leaf),
      pairs = done ++ todo →
      (∀ i, L.cached_sub_pages i = pageOpt median true i done) →
      (∀ i, R.cached_sub_pages i = pageOpt median false i done) →
      L.total_entries = ((done.filter (side_pred median true)).length : ℤ) →
      R.total_entries = ((done.filter (side_pred median false)).length : ℤ) →
      (∀ i, (todo.foldl (fun (st : bplus_super_leaf × bplus_super_leaf) p =>
          if p.1 < median then (redist_insert st.1 p, st.2)
          else (st.1, redist_insert st.2 p)) (L, R)).1.cached_sub_pages i =
        pageOpt median true i pairs) ∧
      (∀ i, (todo.foldl (fun (st : bplus_super_leaf × bplus_super_leaf) p =>
          if p.1 < median then (redist_insert st.1 p, st.2)
          else (st.1, redist_insert st.2 p)) (L, R)).2.cached_sub_pages i =
        pageOpt median false i pairs) ∧
      (todo.foldl (fun (st : bplus_super_leaf × bplus_super_leaf) p =>
          if p.1 < median then (redist_insert st.1 p, st.2)
          else (st.1, redist_insert st.2 p)) (L, R)).1.total_entries =
        ((pairs.filter (side_pred median true)).length : ℤ) ∧
      (todo.foldl (fun (st : bplus_super_leaf × bplus_super_leaf) p =>
          if p.1 < median then (redist_insert st.1 p, st.2)
          else (st.1, redist_insert st.2 p)) (L, R)).2.total_entries =
        ((pairs.filter (side_pred median false)).length : ℤ) ∧
      (todo.foldl (fun (st : bplus_super_leaf × bplus_super_leaf) p =>
          if p.1 < median then (redist_insert st.1 p, st.2)
          else (st.1, redist_insert st.2 p)) (L, R)).1.sub_page_blocks =
        L.sub_page_blocks ∧
      (todo.foldl (fun (st : bplus_super_leaf × bplus_super_leaf) p =>
          if p.1 < median then (redist_insert st.1 p, st.2)
          else (st.1, redist_insert st.2 p)) (L, R)).2.sub_page_blocks =
        R.sub_page_blocks
  | [], done, L, R, hpairs, hL, hR, hLt, hRt => by
      rw [List.append_nil] at hpairs
      subst hpairs
      exact ⟨hL, hR, hLt, hRt, rfl, rfl⟩
  | e :: todo', done, L, R, hpairs, hL, hR, hLt, hRt => by
      simp only [List.foldl_cons]
      by_cases hlt : e.1 < median
      · have hs : decide (e.1 < median) = true := decide_eq_true hlt
        have hstep := redist_side_step median pairs done todo' e hpairs hdist
          (by rw [hs]; exact hbound true (hashIdx e.1)) L
          (by rw [hs]; exact hL) (by rw [hs]; exact hLt)
        rw [hs] at hstep
        rw [if_pos hlt]
        have hrec := redist_fold_inv median pairs hdist hbound todo' (done ++ [e])
          (redist_insert L e) R (by rw [hpairs, List.append_assoc]; rfl)
          hstep.1
          (fun i => by
            rw [hR i]
            exact (pageOpt_snoc_other median false i done e
              (redist_class_other_side median false i e (by rw [hs]; simp))).symm)
          hstep.2.1
          (by
            rw [hRt, side_filter_snoc_other median false done e (by rw [hs]; simp)])
        refine ⟨hrec.1, hrec.2.1, hrec.2.2.1, hrec.2.2.2.1, ?_, ?_⟩
        · rw [hrec.2.2.2.2.1, hstep.2.2]
        · exact hrec.2.2.2.2.2
      · have hs : decide (e.1 < median) = false := decide_eq_false hlt
        have hstep := redist_side_step median pairs done todo' e hpairs hdist
          (by rw [hs]; exact hbound false (hashIdx e.1)) R
          (by rw [hs]; exact hR) (by rw [hs]; exact hRt)
        rw [hs] at hstep
        rw [if_neg hlt]
        have hrec := redist_fold_inv median pairs hdist hbound todo' (done ++ [e])
          L (redist_insert R e) (by rw [hpairs, List.append_assoc]; rfl)
          (fun i => by
            rw [hL i]
            exact (pageOpt_snoc_other median true i done e
              (redist_class_other_side median true i e (by rw [hs]; simp))).symm)
          hstep.1
          (by
            rw [hLt, side_filter_snoc_other median true done e (by rw [hs]; simp)])
          hstep.2.1
        refine ⟨hrec.1, hrec.2.1, hrec.2.2.1, hrec.2.2.2.1, ?_, ?_⟩
        · exact hrec.2.2.2.2.1
        · rw [hrec.2.2.2.2.2, hstep.2.2]


/-- One flush step only touches the dirty flags of the super-leaf (and the
disk): cache, counters and blocks are unchanged. -/
lemma flush_step_fields (sl : bplus_super_leaf) (dm : disk_manager) (n : ℕ)
    (i : Fin 16) :
    (flush_step (sl, dm, n) i).1.cached_sub_pages = sl.cached_sub_pages ∧
    (flush_step (sl, dm, n) i).1.total_entries = sl.total_entries ∧
    (flush_step (sl, dm, n) i).1.sub_page_blocks = sl.sub_page_blocks := by
  simp only [flush_step]
  repeat' split
  all_goals exact ⟨rfl, rfl, rfl⟩

/-- Flushing dirty pages leaves cache, counters and blocks unchanged. -/
lemma flush_fold_fields :
    ∀ (l : List (Fin 16)) (st : bplus_super_leaf × disk_manager × ℕ),
      ((l.foldl flush_step st).1.cached_sub_pages = st.1.cached_sub_pages) ∧
      ((l.foldl flush_step st).1.total_entries = st.1.total_entries) ∧
      ((l.foldl flush_step st).1.sub_page_blocks = st.1.sub_page_blocks)
  | [], _ => ⟨rfl, rfl, rfl⟩
  | i :: l', st => by
      obtain ⟨sl, dm, n⟩ := st
      have h1 := flush_step_fields sl dm n i
      have hrec := flush_fold_fields l' (flush_step (sl, dm, n) i)
      simp only [List.foldl_cons]
      exact ⟨hrec.1.trans h1.1, hrec.2.1.trans h1.2.1, hrec.2.2.trans h1.2.2⟩

/-- The block allocation pass of the write phase: it does not touch the
cache or the counter, it assigns a block to every slot of the processed
list that has a cached page, and it leaves the other slots blocks alone. -/
lemma split_alloc_right_spec :
    ∀ (l : List (Fin 16)) (r : bplus_super_leaf) (a : block_allocator)
      (r2 : bplus_super_leaf) (a2 : block_allocator),
      split_alloc_right l r a = some (r2, a2) →
      r2.cached_sub_pages = r.cached_sub_pages ∧
      r2.total_entries = r.total_entries ∧
      (∀ i, i ∈ l → (r.cached_sub_pages i).isSome = true →
        (r2.sub_page_blocks i).isSome = true) ∧
      (∀ i, i ∉ l → r2.sub_page_blocks i = r.sub_page_blocks i)
  | [], r, a, r2, a2, h => by
      simp only [split_alloc_right, Option.some.injEq, Prod.mk.injEq] at h
      obtain ⟨h1, _⟩ := h
      subst h1
      exact ⟨rfl, rfl, fun i hi => absurd hi (List.not_mem_nil i),
        fun _ _ => rfl⟩
  | i :: l', r, a, r2, a2, h => by
      unfold split_alloc_right at h
      split at h
      next hcache =>
        rcases hab : allocate_block a with ⟨res, a1⟩
        rw [hab] at h
        cases res with
        | none => simp at h
        | some b =>
            have hrec := split_alloc_right_spec l'
              { r with sub_page_blocks :=
                  Function.update r.sub_page_blocks i (some b) } a1 r2 a2 h
            refine ⟨hrec.1, hrec.2.1, ?_, ?_⟩
            · intro j hj hcs
              rcases List.mem_cons.mp hj with hji | hjl
              · subst hji
                by_cases hjmem : j ∈ l'
                · exact hrec.2.2.1 j hjmem hcs
                · rw [hrec.2.2.2 j hjmem]
                  simp [Function.update_same]
              · exact hrec.2.2.1 j hjl hcs
            · intro j hj
              have hji : j ≠ i := fun hh => hj (hh ▸ List.mem_cons_self _ _)
              have hjl : j ∉ l' := fun hh => hj (List.mem_cons_of_mem _ hh)
              rw [hrec.2.2.2 j hjl]
              simp [Function.update_noteq hji]
      next hcache =>
        have hrec := split_alloc_right_spec l' r a r2 a2 h
        refine ⟨hrec.1, hrec.2.1, ?_, ?_⟩
        · intro j hj hcs
          rcases List.mem_cons.mp hj with hji | hjl
          · subst hji
            exact absurd hcs (by simpa using hcache)
          · exact hrec.2.2.1 j hjl hcs
        · intro j hj
          exact hrec.2.2.2 j (fun hh => hj (List.mem_cons_of_mem _ hh))

/-- What a successful redistribution produces: the median is the key at
index length / 2 of the sorted pairs, each side holds exactly the pages of
its classes with the side count as total_entries, and the block arrays of
the two leaves are untouched. -/
lemma redistribute_pairs_spec (median0 : ℤ) (pairs : List (ℤ × ℤ))
    (left right : bplus_super_leaf) (L1 R1 : bplus_super_leaf)
    (hdist : pairs.Pairwise (fun a b => a.1 ≠ b.1))
    (hbound : ∀ (s : Bool) (i : Fin 16),
      (pairs.filter (redist_class median0 s i)).length ≤ ENTRIES_PER_SUB_PAGE)
    (hred : redistribute_pairs_hashed pairs left right = some (L1, R1, median0)) :
    median0 = (pairs.getD (pairs.length / 2) (0, 0)).1 ∧
    (∀ i, L1.cached_sub_pages i = pageOpt median0 true i pairs) ∧
    (∀ i, R1.cached_sub_pages i = pageOpt median0 false i pairs) ∧
    L1.total_entries = ((pairs.filter (side_pred median0 true)).length : ℤ) ∧
    R1.total_entries = ((pairs.filter (side_pred median0 false)).length : ℤ) ∧
    L1.sub_page_blocks = left.sub_page_blocks ∧
    R1.sub_page_blocks = right.sub_page_blocks := by
  unfold redistribute_pairs_hashed at hred
  split at hred
  · simp at hred
  · simp only [Option.some.injEq, Prod.mk.injEq] at hred
    obtain ⟨hL1, hR1, hmed⟩ := hred
    subst hmed
    have hinv := redist_fold_inv ((pairs.getD (pairs.length / 2) (0, 0)).1)
      pairs hdist hbound pairs []
      { left with cached_sub_pages := fun _ => none, total_entries := 0 }
      { right with cached_sub_pages := fun _ => none, total_entries := 0 }
      (by simp)
      (by intro i; simp [pageOpt])
      (by intro i; simp [pageOpt])
      (by simp)
      (by simp)
    refine ⟨rfl, ?_, ?_, ?_, ?_, ?_, ?_⟩
    · intro i
      rw [← hL1]
      exact hinv.1 i
    · intro i
      rw [← hR1]
      exact hinv.2.1 i
    · rw [← hL1]
      exact hinv.2.2.1
    · rw [← hR1]
      exact hinv.2.2.2.1
    · rw [← hL1]
      exact hinv.2.2.2.2.1
    · rw [← hR1]
      exact hinv.2.2.2.2.2

/-- A pair in a redistribution class hashes to that class slot. -/
lemma redist_class_hash {m : ℤ} {s : Bool} {i : Fin 16} {e : ℤ × ℤ}
    (h : redist_class m s i e = true) : hashIdx e.1 = i := by
  unfold redist_class at h
  simp only [Bool.and_eq_true, beq_iff_eq] at h
  exact h.2

/-- The two redistribution sides partition the pair list. -/
lemma side_filter_partition (median : ℤ) :
    ∀ (l : List (ℤ × ℤ)),
      (l.filter (side_pred median true)).length +
        (l.filter (side_pred median false)).length = l.length
  | [] => rfl
  | e :: l' => by
      have hrec := side_filter_partition median l'
      by_cases h : e.1 < median
      · rw [List.filter_cons_of_pos (by simp [side_pred, h]),
          List.filter_cons_of_neg (by simp [side_pred, h])]
        simp only [List.length_cons]
        omega
      · rw [List.filter_cons_of_neg (by simp [side_pred, h]),
          List.filter_cons_of_pos (by simp [side_pred, h])]
        simp only [List.length_cons]
        omega

/-- C6: on a successful split of a super-leaf, the promoted median is the
key at index n/2 of the consolidated sorted pair sequence, the two
resulting total_entries counters sum to n, and every consolidated pair
lands - strictly below the median on the left side, at or above it on the
right - in the sub-page at its hash slot, where a search (both directly in
the cached page and through super_leaf_search_hashed) returns its value.
The hypotheses state that the super-leaf is well formed: every buffered
pair sits in its hash slot, keys are not duplicated within a buffer, and
no buffer exceeds the sub-page capacity. -/
theorem split_super_leaf_spec (dm : disk_manager) (sl : bplus_super_leaf)
    (median : ℤ) (L R : bplus_super_leaf) (dm' : disk_manager)
    (hres : ∀ i : Fin 16, ∀ e ∈ (split_read_buffers dm sl i).getD [],
      hashIdx e.1 = i)
    (hkeys : ∀ i : Fin 16,
      ((split_read_buffers dm sl i).getD []).Pairwise (fun a b => a.1 ≠ b.1))
    (hlen : ∀ i : Fin 16,
      ((split_read_buffers dm sl i).getD []).length ≤ ENTRIES_PER_SUB_PAGE)
    (hsplit : split_super_leaf dm sl = some (median, L, R, dm')) :
    median = ((consolidate_and_sort (split_read_buffers dm sl)).getD
        ((consolidate_and_sort (split_read_buffers dm sl)).length / 2) (0, 0)).1 ∧
    L.total_entries + R.total_entries =
      ((consolidate_and_sort (split_read_buffers dm sl)).length : ℤ) ∧
    ∀ e ∈ consolidate_and_sort (split_read_buffers dm sl),
      (e.1 < median →
        ∃ pg, L.cached_sub_pages (hashIdx e.1) = some pg ∧
          sub_page_search pg e.1 = e.2 ∧
          (super_leaf_search_hashed dm' L e.1).1 = e.2) ∧
      (¬ e.1 < median →
        ∃ pg, R.cached_sub_pages (hashIdx e.1) = some pg ∧
          sub_page_search pg e.1 = e.2 ∧
          (super_leaf_search_hashed dm' R e.1).1 = e.2) := by
  unfold split_super_leaf at hsplit
  dsimp only at hsplit
  split at hsplit
  next => simp at hsplit
  next hall =>
  split at hsplit
  next => simp at hsplit
  next hemp =>
  rcases hred : redistribute_pairs_hashed
      (consolidate_and_sort (split_read_buffers dm sl)) sl super_leaf_create
    with _ | ⟨l1, r1, median1⟩
  · rw [hred] at hsplit
    simp at hsplit
  rw [hred] at hsplit
  dsimp only at hsplit
  rcases halloc : split_alloc_right (List.finRange 16) r1 dm.allocator
    with _ | ⟨r2, a2⟩
  · rw [halloc] at hsplit
    simp at hsplit
  rw [halloc] at hsplit
  dsimp only at hsplit
  simp only [Option.some.injEq, Prod.mk.injEq] at hsplit
  obtain ⟨hmedq, hLq, hRq, hdmq⟩ := hsplit
  subst hmedq
  have hfl : ∀ (d : disk_manager) (t : bplus_super_leaf),
      (super_leaf_flush_dirty d t).1.cached_sub_pages = t.cached_sub_pages ∧
      (super_leaf_flush_dirty d t).1.total_entries = t.total_entries ∧
      (super_leaf_flush_dirty d t).1.sub_page_blocks = t.sub_page_blocks :=
    fun d t => flush_fold_fields (List.finRange 16) (t, d, 0)
  have hLc : L.cached_sub_pages = l1.cached_sub_pages := by
    rw [← hLq]
    exact (hfl _ l1).1
  have hLt : L.total_entries = l1.total_entries := by
    rw [← hLq]
    exact (hfl _ l1).2.1
  have hLb : L.sub_page_blocks = l1.sub_page_blocks := by
    rw [← hLq]
    exact (hfl _ l1).2.2
  have hallo := split_alloc_right_spec (List.finRange 16) r1 dm.allocator r2 a2
    halloc
  have hRc : R.cached_sub_pages = r1.cached_sub_pages := by
    rw [← hRq]
    exact ((hfl _ r2).1).trans hallo.1
  have hRt : R.total_entries = r1.total_entries := by
    rw [← hRq]
    exact ((hfl _ r2).2.1).trans hallo.2.1
  have hRb : R.sub_page_blocks = r2.sub_page_blocks := by
    rw [← hRq]
    exact (hfl _ r2).2.2
  have hperm := consolidate_and_sort_perm (split_read_buffers dm sl)
  have hcdist := consolidate_pairwise_ne (split_read_buffers dm sl) hres hkeys
  have hdist : (consolidate_and_sort (split_read_buffers dm sl)).Pairwise
      (fun a b => a.1 ≠ b.1) :=
    (List.Perm.pairwise_iff (fun h => Ne.symm h) hperm).mpr hcdist
  have hbound : ∀ (s : Bool) (i : Fin 16),
      ((consolidate_and_sort (split_read_buffers dm sl)).filter
        (redist_class median1 s i)).length ≤ ENTRIES_PER_SUB_PAGE := by
    intro s i
    have hcnt : ((consolidate_and_sort (split_read_buffers dm sl)).filter
        (redist_class median1 s i)).length =
        (consolidate (split_read_buffers dm sl)).countP
          (redist_class median1 s i) := by
      rw [← List.countP_eq_length_filter]
      exact hperm.countP_eq _
    rw [hcnt]
    exact le_trans
      (countP_consolidate_le _ hres _ i (fun e he => redist_class_hash he))
      (hlen i)
  have hspec := redistribute_pairs_spec median1
    (consolidate_and_sort (split_read_buffers dm sl)) sl super_leaf_create
    l1 r1 hdist hbound hred
  refine ⟨hspec.1, ?_, ?_⟩
  · have hsum := side_filter_partition median1
      (consolidate_and_sort (split_read_buffers dm sl))
    rw [hLt, hspec.2.2.2.1, hRt, hspec.2.2.2.2.1]
    exact_mod_cast hsum
  · intro e he
    have hmemc : e ∈ consolidate (split_read_buffers dm sl) := hperm.mem_iff.mp he
    have hbuf := consolidate_mem_buf hres hmemc
    constructor
    · intro hlt
      have hcls : redist_class median1 true (hashIdx e.1) e = true := by
        have h0 := redist_class_self median1 e
        rwa [decide_eq_true hlt] at h0
      have hmem_f : e ∈ ((consolidate_and_sort (split_read_buffers dm sl)).filter
          (redist_class median1 true (hashIdx e.1))) :=
        List.mem_filter.mpr ⟨he, hcls⟩
      have hne : ((consolidate_and_sort (split_read_buffers dm sl)).filter
          (redist_class median1 true (hashIdx e.1))) ≠ [] :=
        List.ne_nil_of_mem hmem_f
      have hpage : pageOpt median1 true (hashIdx e.1)
          (consolidate_and_sort (split_read_buffers dm sl)) =
          some (build_page
            ((consolidate_and_sort (split_read_buffers dm sl)).filter
              (redist_class median1 true (hashIdx e.1)))) := by
        unfold pageOpt
        rw [if_neg (fun hI => hne (List.isEmpty_iff.mp hI))]
      have hfiltdist : ((consolidate_and_sort (split_read_buffers dm sl)).filter
          (redist_class median1 true (hashIdx e.1))).Pairwise
            (fun a b => a.1 ≠ b.1) :=
        List.Pairwise.sublist (List.filter_sublist _) hdist
      have hsearch : sub_page_search
          (build_page ((consolidate_and_sort (split_read_buffers dm sl)).filter
            (redist_class median1 true (hashIdx e.1)))) e.1 = e.2 := by
        unfold build_page
        rw [build_fold_search _ _ _ hfiltdist
          (fun a _ b hb => absurd hb (List.not_mem_nil b)),
          find_mem_distinct _ hfiltdist e hmem_f]
      have hLslot : L.cached_sub_pages (hashIdx e.1) =
          some (build_page
            ((consolidate_and_sort (split_read_buffers dm sl)).filter
              (redist_class median1 true (hashIdx e.1)))) := by
        rw [hLc, hspec.2.1 (hashIdx e.1), hpage]
      refine ⟨_, hLslot, hsearch, ?_⟩
      have hblk : (L.sub_page_blocks (hashIdx e.1)).isSome = true := by
        rw [hLb, hspec.2.2.2.2.2.1]
        exact hbuf.2
      rcases Option.isSome_iff_exists.mp hblk with ⟨b, hb⟩
      unfold super_leaf_search_hashed super_leaf_load_sub_page_by_hash
      dsimp only
      rw [hb, hLslot]
      simp [hsearch]
    · intro hnlt
      have hcls : redist_class median1 false (hashIdx e.1) e = true := by
        have h0 := redist_class_self median1 e
        rwa [decide_eq_false hnlt] at h0
      have hmem_f : e ∈ ((consolidate_and_sort (split_read_buffers dm sl)).filter
          (redist_class median1 false (hashIdx e.1))) :=
        List.mem_filter.mpr ⟨he, hcls⟩
      have hne : ((consolidate_and_sort (split_read_buffers dm sl)).filter
          (redist_class median1 false (hashIdx e.1))) ≠ [] :=
        List.ne_nil_of_mem hmem_f
      have hpage : pageOpt median1 false (hashIdx e.1)
          (consolidate_and_sort (split_read_buffers dm sl)) =
          some (build_page
            ((consolidate_and_sort (split_read_buffers dm sl)).filter
              (redist_class median1 false (hashIdx e.1)))) := by
        unfold pageOpt
        rw [if_neg (fun hI => hne (List.isEmpty_iff.mp hI))]
      have hfiltdist : ((consolidate_and_sort (split_read_buffers dm sl)).filter
          (redist_class median1 false (hashIdx e.1))).Pairwise
            (fun a b => a.1 ≠ b.1) :=
        List.Pairwise.sublist (List.filter_sublist _) hdist
      have hsearch : sub_page_search
          (build_page ((consolidate_and_sort (split_read_buffers dm sl)).filter
            (redist_class median1 false (hashIdx e.1)))) e.1 = e.2 := by
        unfold build_page
        rw [build_fold_search _ _ _ hfiltdist
          (fun a _ b hb => absurd hb (List.not_mem_nil b)),
          find_mem_distinct _ hfiltdist e hmem_f]
      have hRslot : R.cached_sub_pages (hashIdx e.1) =
          some (build_page
            ((consolidate_and_sort (split_read_buffers dm sl)).filter
              (redist_class median1 false (hashIdx e.1)))) := by
        rw [hRc, hspec.2.2.1 (hashIdx e.1), hpage]
      refine ⟨_, hRslot, hsearch, ?_⟩
      have hr1c : (r1.cached_sub_pages (hashIdx e.1)).isSome = true := by
        rw [hspec.2.2.1 (hashIdx e.1), hpage]
        rfl
      have hblk : (R.sub_page_blocks (hashIdx e.1)).isSome = true := by
        rw [hRb]
        exact hallo.2.2.1 (hashIdx e.1) (List.mem_finRange _) hr1c
      rcases Option.isSome_iff_exists.mp hblk with ⟨b, hb⟩
      unfold super_leaf_search_hashed super_leaf_load_sub_page_by_hash
      dsimp only
      rw [hb, hRslot]
      simp [hsearch]


/-- C6 witness: the split of the concrete six-entry super-leaf c6_leaf on
dm64 satisfies every hypothesis and conclusion of the split theorem. -/
theorem split_super_leaf_spec_witness :
    (∀ i : Fin 16, ∀ e ∈ (split_read_buffers dm64 c6_leaf i).getD [],
      hashIdx e.1 = i) ∧
    split_super_leaf dm64 c6_leaf =
      some (c6_out.1, c6_out.2.1, c6_out.2.2.1, c6_out.2.2.2) ∧
    (c6_out.1 = ((consolidate_and_sort (split_read_buffers dm64 c6_leaf)).getD
        ((consolidate_and_sort (split_read_buffers dm64 c6_leaf)).length / 2)
        (0, 0)).1 ∧
    c6_out.2.1.total_entries + c6_out.2.2.1.total_entries =
      ((consolidate_and_sort (split_read_buffers dm64 c6_leaf)).length : ℤ) ∧
    ∀ e ∈ consolidate_and_sort (split_read_buffers dm64 c6_leaf),
      (e.1 < c6_out.1 →
        ∃ pg, c6_out.2.1.cached_sub_pages (hashIdx e.1) = some pg ∧
          sub_page_search pg e.1 = e.2 ∧
          (super_leaf_search_hashed c6_out.2.2.2 c6_out.2.1 e.1).1 = e.2) ∧
      (¬ e.1 < c6_out.1 →
        ∃ pg, c6_out.2.2.1.cached_sub_pages (hashIdx e.1) = some pg ∧
          sub_page_search pg e.1 = e.2 ∧
          (super_leaf_search_hashed c6_out.2.2.2 c6_out.2.2.1 e.1).1 = e.2)) :=
  ⟨by decide,
   by rfl,
   split_super_leaf_spec dm64 c6_leaf c6_out.1 c6_out.2.1 c6_out.2.2.1
     c6_out.2.2.2 (by decide) (by decide) (by decide) (by rfl)⟩

end ZipCache

